import Mathlib

/-!
Identity service (`services/identity/service.go`)

A shallow embedding of the handlers of the identity service: the registry of
identities, the proposal store and the voting engine.  Every handler of the Go
code mutates the service in place and returns a `(network.ProtocolMessage, error)`
pair; here a handler is a pure function from the service state and the request to
a `Ret`: the state afterwards, the returned pair (`Out`) and the list of calls
made to the outside world (`Event`).  A Go run-time panic (nil dereference,
write into a nil map, index out of range) is the outcome `Out.fault`.

The collaborators that are not part of the file (ledger client, transport,
signature verifier, config digest) are the fields of `Env`.
-/

namespace Identity

/-! ## Go maps with string keys -/

/-- A Go `map[string]V`, kept as an association list with one entry per key. -/
abbrev GoMap (V : Type) := List (String × V)

namespace GoMap

variable {V : Type}

/-- The lookup `m[k]` with its `ok` flag: `none` when the key is absent. -/
def get : GoMap V → String → Option V
  | [], _ => none
  | (k', v) :: m, k => if k' = k then some v else get m k

/-- The assignment `m[k] = v`: overwrites the entry of `k` or adds one. -/
def set : GoMap V → String → V → GoMap V
  | [], k, v => [(k, v)]
  | (k', v') :: m, k, v => if k' = k then (k, v) :: m else (k', v') :: set m k v

/-- The `exists` flag of `_, exists := m[k]`. -/
def has (m : GoMap V) (k : String) : Bool := (get m k).isSome

end GoMap

/-! ## Data model -/

/-- Bytes of a digest (`crypto.HashID`, `SkipBlock.Hash`), read as a string. -/
abbrev HashID := String

/-- The identifier of a network entity (`network.EntityID`). -/
abbrev EntityID := String

/-- A Schnorr signature (`crypto.SchnorrSig`). -/
abbrev SchnorrSig := String

/-- A public key (`abstract.Point`). -/
abbrev Point := String

/-- Modelled from the spec: the declaration of `Owner` is not in the file; an owner
is a public-key credential, read by `VoteConfig` as `owner.Point`. -/
structure Owner where
  Point : Identity.Point
  deriving DecidableEq, Repr

/-- Modelled from the spec: the declaration of `AccountList` is not in the file; it is
a mapping from owner name to a public-key credential plus an integer `Threshold`
(`sid.Latest.Owners[v.Signer]`, `sid.Latest.Threshold`). -/
structure AccountList where
  Threshold : Int
  Owners : GoMap Owner
  deriving DecidableEq, Repr

/-- Modelled from the spec: a peer of a roster (`network.Entity`), of which the
service reads the `ID`. -/
structure Entity where
  ID : EntityID
  deriving DecidableEq, Repr

/-- Modelled from the spec: a ledger block reference (`skipchain.SkipBlock`), of which
the service reads the `Hash` and the roster `EntityList.List`. -/
structure SkipBlock where
  Hash : HashID
  EntityList : List Entity
  deriving DecidableEq, Repr

/-- The per-node replica of one identity (`IdentityStorage`, lines 39-45).  The five
fields are pointers or a map in Go, so each of them may be nil (`none`). -/
structure IdentityStorage where
  Latest : Option AccountList
  Proposed : Option AccountList
  Votes : Option (GoMap (Option SchnorrSig))
  Root : Option SkipBlock
  Data : Option SkipBlock
  deriving DecidableEq, Repr

/-- The mutable part of `Service`: the registry `Identities`.  The Go map holds
pointers; every entry is created by `AddIdentity` or decoded from a message by
`PropagateIdentity`, so no two ids share one storage and the registry is kept by value. -/
structure Service where
  Identities : GoMap IdentityStorage
  deriving DecidableEq, Repr

/-! ## Messages -/

/-- Request of `AddIdentity`: the initial config and the roster. -/
structure AddIdentity where
  AccountList : Option Identity.AccountList
  EntityList : List Entity
  deriving DecidableEq, Repr

/-- Reply of `AddIdentity`. -/
structure AddIdentityReply where
  Root : Option SkipBlock
  Data : Option SkipBlock
  deriving DecidableEq, Repr

/-- Request of `PropagateIdentity`: a full replica. -/
structure PropagateIdentity where
  IdentityStorage : Identity.IdentityStorage
  deriving DecidableEq, Repr

/-- Request of `ProposeConfig`: the id and the proposed config (a pointer). -/
structure PropagateProposition where
  ID : String
  AccountList : Option Identity.AccountList
  deriving DecidableEq, Repr

/-- Request and reply of `ConfigNewCheck`. -/
structure ConfigNewCheck where
  ID : String
  AccountList : Option Identity.AccountList
  deriving DecidableEq, Repr

/-- Request and reply of `ConfigUpdate`. -/
structure ConfigUpdate where
  ID : String
  AccountList : Option Identity.AccountList
  deriving DecidableEq, Repr

/-- Request of `VoteConfig`: a nil `Signature` is a reject ballot. -/
structure Vote where
  ID : String
  Signer : String
  Signature : Option SchnorrSig
  deriving DecidableEq, Repr

/-- Request of `PropagateSkipBlock`. -/
structure UpdateSkipBlock where
  ID : String
  deriving DecidableEq, Repr

/-- The messages the service sends to its peers. -/
inductive Msg where
  | propagateIdentity (m : PropagateIdentity)
  | vote (m : Vote)
  | updateSkipBlock (m : UpdateSkipBlock)
  deriving DecidableEq, Repr

/-- The non-nil values a handler returns as `network.ProtocolMessage`. -/
inductive Reply where
  | addIdentityReply (m : AddIdentityReply)
  | configNewCheck (m : ConfigNewCheck)
  | configUpdate (m : ConfigUpdate)
  | skipBlock (m : Option SkipBlock)
  deriving DecidableEq, Repr

/-- What a handler call ends with: the pair `(msg, nil)` (`msg` may be nil), the pair
`(nil, err)` with the text of `err`, or a run-time panic. -/
inductive Out where
  | reply (m : Option Reply)
  | error (e : String)
  | fault
  deriving DecidableEq, Repr

/-- A call a handler makes to a collaborator, in the order of the calls. -/
inductive Event where
  | verifySchnorr (pub : Point) (hash : HashID) (sig : SchnorrSig)
  | sendISMOthers (el : List Entity) (m : Msg)
  | sendRaw (dst : Entity) (m : Msg)
  | createRoster (el : List Entity)
  | createData (root : Option SkipBlock) (al : Option AccountList)
  | proposeData (root data : Option SkipBlock) (al : AccountList)
  | getUpdateChain (root : Option SkipBlock) (hash : HashID)
  deriving DecidableEq, Repr

/-- The calls that send a message to a peer. -/
def Event.isSend : Event → Bool
  | .sendISMOthers _ _ => true
  | .sendRaw _ _ => true
  | _ => false

/-- The calls to the ledger client. -/
def Event.isLedger : Event → Bool
  | .createRoster _ => true
  | .createData _ _ => true
  | .proposeData _ _ _ => true
  | .getUpdateChain _ _ => true
  | _ => false

/-- The result of one handler call. -/
structure Ret where
  s : Service
  out : Out
  trace : List Event
  deriving DecidableEq, Repr

/-- The collaborators of the service.  An `Option String` result is a Go `error`
(`none` is nil); an `Except String` result is a `(value, error)` pair. -/
structure Env where
  /-- The digest of a config, `(*AccountList).Hash`. -/
  Hash : AccountList → Except String HashID
  /-- The verifier `crypto.VerifySchnorr(network.Suite, pub, hash, sig)`. -/
  VerifySchnorr : Point → HashID → SchnorrSig → Option String
  /-- The fan-out `s.SendISMOthers(el, msg)` to the other peers of a roster. -/
  SendISMOthers : List Entity → Msg → Option String
  /-- The error of `sda.CreateServiceMessage(ServiceName, msg)`. -/
  CreateServiceMessage : Msg → Option String
  /-- The send `s.SendRaw(e, cr)` to one peer. -/
  SendRaw : Entity → Msg → Option String
  /-- The ledger call `s.skipchain.CreateRoster(el, 2, 10, skipchain.VerifyNone, nil)`. -/
  CreateRoster : List Entity → Except String (Option SkipBlock)
  /-- The ledger call `s.skipchain.CreateData(root, 2, 10, skipchain.VerifyNone, al)`. -/
  CreateData : Option SkipBlock → Option AccountList →
    Except String (Option SkipBlock × Option SkipBlock)
  /-- The ledger call `s.skipchain.ProposeData(root, data, al)`, the result being `reply.Latest`. -/
  ProposeData : Option SkipBlock → Option SkipBlock → AccountList →
    Except String (Option SkipBlock)
  /-- The ledger call `s.skipchain.GetUpdateChain(root, hash)`, the result being `gucr.Update`. -/
  GetUpdateChain : Option SkipBlock → HashID → Except String (List (Option SkipBlock))
  /-- The id of this node, `s.Entity().ID`. -/
  self : EntityID

/-- The index of the first entity of `el` with the given id, counted from `i`. -/
def SearchFrom (i : Nat) : List Entity → EntityID → Int
  | [], _ => -1
  | x :: xs, id => if x.ID = id then (i : Int) else SearchFrom (i + 1) xs id

/-- Modelled from the spec: `EntityList.Search` is not in the file; the roster
membership check returns the index of the sender in the roster and `-1` when the
sender is not a roster peer. -/
def Search (el : List Entity) (id : EntityID) : Int := SearchFrom 0 el id

/-! ## Handlers -/

/-- The loop of lines 74-87 of `AddIdentity` over the roster: the texts of the failed
sends so far and the calls made, or the error of `CreateServiceMessage`. -/
def Service.sendIdentity (env : Env) (ids : IdentityStorage) :
    List Entity → List String → List Event → Except String (List String) × List Event
  | [], errorStr, tr => (.ok errorStr, tr)
  | e :: rest, errorStr, tr =>
    if e.ID = env.self then Service.sendIdentity env ids rest errorStr tr
    else
      match env.CreateServiceMessage (.propagateIdentity ⟨ids⟩) with
      | some err => (.error err, tr)
      | none =>
        let tr1 : List Event := tr ++ [.sendRaw e (.propagateIdentity ⟨ids⟩)]
        match env.SendRaw e (.propagateIdentity ⟨ids⟩) with
        | some err => Service.sendIdentity env ids rest (errorStr ++ [err]) tr1
        | none => Service.sendIdentity env ids rest errorStr tr1

/-- The handler `AddIdentity` (lines 49-93). -/
def Service.AddIdentity (env : Env) (s : Service) (_e : Entity) (ai : Identity.AddIdentity) :
    Ret :=
  let tr0 : List Event := [.createRoster ai.EntityList]
  match env.CreateRoster ai.EntityList with
  | .error err => ⟨s, .error err, tr0⟩
  | .ok root0 =>
  let tr1 : List Event := tr0 ++ [.createData root0 ai.AccountList]
  match env.CreateData root0 ai.AccountList with
  | .error err => ⟨s, .error err, tr1⟩
  | .ok (root, data) =>
  let ids : IdentityStorage :=
    { Latest := ai.AccountList, Proposed := none, Votes := none, Root := root, Data := data }
  match data with
  | none => ⟨s, .fault, tr1⟩
  | some d =>
  let s1 : Service := ⟨s.Identities.set d.Hash ids⟩
  match root with
  | none => ⟨s1, .fault, tr1⟩
  | some r =>
  match Service.sendIdentity env ids r.EntityList [] tr1 with
  | (.error err, tr) => ⟨s1, .error err, tr⟩
  | (.ok errorStr, tr) =>
    if errorStr.length > 0 then ⟨s1, .error ("\n".intercalate errorStr), tr⟩
    else ⟨s1, .reply (some (.addIdentityReply ⟨root, data⟩)), tr⟩

/-- The handler `PropagateIdentity` (lines 96-104). -/
def Service.PropagateIdentity (s : Service) (_e : Entity) (pi : Identity.PropagateIdentity) :
    Ret :=
  match pi.IdentityStorage.Data with
  | none => ⟨s, .fault, []⟩
  | some d =>
    if s.Identities.has d.Hash then ⟨s, .error "That identity already exists here", []⟩
    else ⟨⟨s.Identities.set d.Hash pi.IdentityStorage⟩, .reply none, []⟩

/-- The handler `ProposeConfig` (lines 108-117). -/
def Service.ProposeConfig (s : Service) (_e : Entity) (p : PropagateProposition) : Ret :=
  match s.Identities.get p.ID with
  | none => ⟨s, .error "Didn't find Identity", []⟩
  | some sid =>
    let sid1 := { sid with Proposed := p.AccountList, Votes := some [] }
    ⟨⟨s.Identities.set p.ID sid1⟩, .reply none, []⟩

/-- The handler `ConfigNewCheck` (lines 120-129). -/
def Service.ConfigNewCheck (s : Service) (_e : Entity) (cnc : Identity.ConfigNewCheck) : Ret :=
  match s.Identities.get cnc.ID with
  | none => ⟨s, .error "Didn't find Identity", []⟩
  | some sid => ⟨s, .reply (some (.configNewCheck ⟨cnc.ID, sid.Proposed⟩)), []⟩

/-- The handler `ConfigUpdate` (lines 132-141). -/
def Service.ConfigUpdate (s : Service) (_e : Entity) (cu : Identity.ConfigUpdate) : Ret :=
  match s.Identities.get cu.ID with
  | none => ⟨s, .error "Didn't find Identity", []⟩
  | some sid => ⟨s, .reply (some (.configUpdate ⟨cu.ID, sid.Latest⟩)), []⟩

/-- The calls to the verifier made for a ballot: one when the signature is present. -/
def verifyTrace (owner : Owner) (hash : HashID) : Option SchnorrSig → List Event
  | none => []
  | some sig => [.verifySchnorr owner.Point hash sig]

/-- The handler `VoteConfig` (lines 146-203).  The test of lines 184-187 on the number
of votes only logs and is left out, as are the other log calls. -/
def Service.VoteConfig (env : Env) (s : Service) (e : Entity) (v : Vote) : Ret :=
  match s.Identities.get v.ID with
  | none => ⟨s, .error "Didn't find identity", []⟩
  | some sid =>
  match sid.Latest with
  | none => ⟨s, .fault, []⟩ -- `sid.Latest.Owners` on a nil `Latest`
  | some latest =>
  match latest.Owners.get v.Signer with
  | none => ⟨s, .error "Didn't find signer", []⟩
  | some owner =>
  match sid.Proposed with
  | none => ⟨s, .error "No proposed block", []⟩
  | some proposed =>
  match env.Hash proposed with
  | .error _ => ⟨s, .error "Couldn't get hash", []⟩
  | .ok hash =>
  -- reading a nil map finds no key
  if (sid.Votes.getD []).has v.Signer then
    ⟨s, .error "Already voted for that block", []⟩
  else
  let tr0 : List Event := verifyTrace owner hash v.Signature
  match v.Signature.bind (env.VerifySchnorr owner.Point hash) with
  | some err => ⟨s, .error ("Wrong signature: " ++ err), tr0⟩
  | none =>
  match sid.Votes with
  | none => ⟨s, .fault, tr0⟩ -- assignment to an entry in a nil map
  | some votes =>
  let sid1 := { sid with Votes := some (votes.set v.Signer v.Signature) }
  let s1 : Service := ⟨s.Identities.set v.ID sid1⟩
  match sid.Root with
  | none => ⟨s1, .fault, tr0⟩ -- `sid.Root.EntityList` on a nil `Root`
  | some root =>
  if Search root.EntityList e.ID = -1 then
    -- the error of the relay is only logged
    let tr1 : List Event := tr0 ++ [.sendISMOthers root.EntityList (.vote v),
      .proposeData sid.Root sid.Data proposed]
    match env.ProposeData sid.Root sid.Data proposed with
    | .error err => ⟨s1, .error err, tr1⟩
    | .ok head =>
      let sid2 := { sid1 with Data := head }
      let s2 : Service := ⟨s.Identities.set v.ID sid2⟩
      let tr2 : List Event := tr1 ++ [.sendISMOthers root.EntityList (.updateSkipBlock ⟨v.ID⟩)]
      match env.SendISMOthers root.EntityList (.updateSkipBlock ⟨v.ID⟩) with
      | some err => ⟨s2, .error err, tr2⟩
      | none => ⟨s2, .reply (some (.skipBlock head)), tr2⟩
  else ⟨s1, .reply none, tr0⟩

/-- The handler `PropagateSkipBlock` (lines 206-217). -/
def Service.PropagateSkipBlock (env : Env) (s : Service) (_e : Entity) (psb : UpdateSkipBlock) :
    Ret :=
  match s.Identities.get psb.ID with
  | none => ⟨s, .error "Didn't find identity", []⟩
  | some sid =>
  match sid.Data with
  | none => ⟨s, .fault, []⟩
  | some d =>
  let tr : List Event := [.getUpdateChain sid.Root d.Hash]
  match env.GetUpdateChain sid.Root d.Hash with
  | .error err => ⟨s, .error err, tr⟩
  | .ok update =>
    match update.getLast? with
    | none => ⟨s, .fault, tr⟩
    | some b => ⟨⟨s.Identities.set psb.ID { sid with Data := b }⟩, .reply none, tr⟩

/-! ## Sequences of calls -/

/-- A request to one of the handlers of the service. -/
inductive Request where
  | addIdentity (m : AddIdentity)
  | propagateIdentity (m : PropagateIdentity)
  | proposeConfig (m : PropagateProposition)
  | configNewCheck (m : ConfigNewCheck)
  | configUpdate (m : ConfigUpdate)
  | voteConfig (m : Vote)
  | propagateSkipBlock (m : UpdateSkipBlock)
  deriving DecidableEq, Repr

/-- The handler call a request stands for. -/
def Service.handle (env : Env) (s : Service) (e : Entity) : Request → Ret
  | .addIdentity m => s.AddIdentity env e m
  | .propagateIdentity m => s.PropagateIdentity e m
  | .proposeConfig m => s.ProposeConfig e m
  | .configNewCheck m => s.ConfigNewCheck e m
  | .configUpdate m => s.ConfigUpdate e m
  | .voteConfig m => s.VoteConfig env e m
  | .propagateSkipBlock m => s.PropagateSkipBlock env e m

/-- One call of a handler: the collaborators as they answer during the call, the
sender and the request. -/
structure Call where
  env : Env
  sender : Entity
  req : Request

/-- The registry after a sequence of calls, each made on the registry the previous
one left; a call that panics ends the process, and there is no registry then. -/
def Service.run : Service → List Call → Option Service
  | s, [] => some s
  | s, c :: cs =>
    if (s.handle c.env c.sender c.req).out = .fault then none
    else Service.run (s.handle c.env c.sender c.req).s cs

/-- The registry of a node that starts (`newIdentityService`): no identity. -/
def Service.empty : Service := ⟨[]⟩

/-- The requests that change an identity already in the registry or read it: all but
`AddIdentity` and `PropagateIdentity`. -/
def Request.onExisting : Request → Bool
  | .addIdentity _ => false
  | .propagateIdentity _ => false
  | _ => true

/-- The requests other than `PropagateIdentity` and the two reads. -/
def Request.fromCreation : Request → Bool
  | .addIdentity _ => true
  | .proposeConfig _ => true
  | .voteConfig _ => true
  | .propagateSkipBlock _ => true
  | _ => false

/-- The configs a request carries into the registry. -/
def Request.configs : Request → List AccountList
  | .addIdentity m => m.AccountList.toList
  | .propagateIdentity m => m.IdentityStorage.Latest.toList ++ m.IdentityStorage.Proposed.toList
  | .proposeConfig m => m.AccountList.toList
  | _ => []

/-- The invariant the spec states for a config: `Threshold` is at most the number of
owners. -/
def AccountList.thresholdOk (al : AccountList) : Bool :=
  decide (al.Threshold ≤ (al.Owners.length : Int))

/-- The roster peers `AddIdentity` sends the new identity to: all but this node. -/
def otherPeers (env : Env) (el : List Entity) : List Entity :=
  el.filter (fun x => decide (x.ID ≠ env.self))

/-- The storage `AddIdentity` builds (lines 50-60) from the request and the two
blocks the ledger created. -/
def createdStorage (ai : AddIdentity) (root data : Option SkipBlock) : IdentityStorage :=
  { Latest := ai.AccountList, Proposed := none, Votes := none, Root := root, Data := data }

/-- The texts of the sends of `msg` that fail, in the order of the peers. -/
def failedSends (env : Env) (peers : List Entity) (msg : Msg) : List String :=
  peers.filterMap (fun x => env.SendRaw x msg)

/-- Both configs of a replica, where present, satisfy `P`. -/
def IdentityStorage.configsSatisfy (P : AccountList → Prop) (sid : IdentityStorage) : Prop :=
  (∀ al, sid.Latest = some al → P al) ∧ (∀ al, sid.Proposed = some al → P al)

/-- The tally of a replica is sound for the digest `H` and the verifier `V`: no name has
two entries in `Votes`, every name in `Votes` is a key of `Latest.Owners`, and every
signature in `Votes` verifies against the digest of `Proposed` under the key that
`Latest` holds for the name. -/
def IdentityStorage.tallySound (H : AccountList → Except String HashID)
    (V : Point → HashID → SchnorrSig → Option String) (sid : IdentityStorage) : Prop :=
  ∀ votes, sid.Votes = some votes →
    (votes.map Prod.fst).Nodup ∧
    ∀ k b, (k, b) ∈ votes →
      ∃ latest owner, sid.Latest = some latest ∧ latest.Owners.get k = some owner ∧
        ∀ sig, b = some sig →
          ∃ proposed hash, sid.Proposed = some proposed ∧ H proposed = .ok hash ∧
            V owner.Point hash sig = none

/-! ## Sample data -/

namespace Sample

/-- A committed config with the owners alice and bob. -/
def latestCfg : AccountList :=
  { Threshold := 2, Owners := [("alice", ⟨"pkA"⟩), ("bob", ⟨"pkB"⟩)] }

/-- A proposed config that adds the owner carol. -/
def nextCfg : AccountList :=
  { Threshold := 2, Owners := [("alice", ⟨"pkA"⟩), ("bob", ⟨"pkB"⟩), ("carol", ⟨"pkC"⟩)] }

/-- A roster block with the peers n1 and n2. -/
def rootBlock : SkipBlock := { Hash := "root", EntityList := [⟨"n1"⟩, ⟨"n2"⟩] }

/-- The genesis data block of the identity `"id1"`. -/
def dataBlock : SkipBlock := { Hash := "id1", EntityList := [] }

/-- The data block the ledger returns for an append. -/
def headBlock : SkipBlock := { Hash := "head", EntityList := [] }

/-- A replica with a pending proposal on which alice has cast an approving ballot. -/
def votedStorage : IdentityStorage :=
  { Latest := some latestCfg, Proposed := some nextCfg,
    Votes := some [("alice", some "pkA/digest3")],
    Root := some rootBlock, Data := some dataBlock }

/-- A replica with a pending proposal and no ballot yet. -/
def pendingStorage : IdentityStorage :=
  { Latest := some latestCfg, Proposed := some nextCfg, Votes := some [],
    Root := some rootBlock, Data := some dataBlock }

/-- A registry with the one identity `"id1"`, alice having voted. -/
def votedService : Service := ⟨[("id1", votedStorage)]⟩

/-- A registry with the one identity `"id1"` and no ballot yet. -/
def pendingService : Service := ⟨[("id1", pendingStorage)]⟩

/-- A client, which is not a peer of the roster. -/
def client : Entity := ⟨"client"⟩

/-- A peer of the roster. -/
def peer : Entity := ⟨"n2"⟩

/-- Collaborators that all succeed: the digest of a config names its number of owners,
a signature is valid when it is the key followed by the digest, and the ledger
returns `headBlock`. -/
def env : Env :=
  { Hash := fun al => .ok ("digest" ++ toString al.Owners.length)
    VerifySchnorr := fun pub hash sig => if sig = pub ++ "/" ++ hash then none else some "bad sig"
    SendISMOthers := fun _ _ => none
    CreateServiceMessage := fun _ => none
    SendRaw := fun _ _ => none
    CreateRoster := fun el => .ok (some { Hash := "root", EntityList := el })
    CreateData := fun root _ => .ok (root, some dataBlock)
    ProposeData := fun _ _ _ => .ok (some headBlock)
    GetUpdateChain := fun _ _ => .ok [some headBlock]
    self := "n1" }

/-- The replica `pendingStorage` after alice's approving ballot was committed by a
client call. -/
def committedStorage : IdentityStorage :=
  { Latest := some latestCfg, Proposed := some nextCfg,
    Votes := some [("alice", some "pkA/digest3")],
    Root := some rootBlock, Data := some headBlock }

/-- The registry after that commit. -/
def committedService : Service := ⟨[("id1", committedStorage)]⟩

/-- The collaborators of `env` with a ledger that refuses every append. -/
def ledgerDownEnv : Env := { env with ProposeData := fun _ _ _ => .error "ledger down" }

/-- The collaborators of `env` with peers that cannot be reached for a ballot relay. -/
def relayDownEnv : Env :=
  { env with SendISMOthers := fun _ m =>
      match m with
      | .vote _ => some "peer offline"
      | _ => none }

/-- The collaborators of `env` with a digest that cannot be computed. -/
def noDigestEnv : Env := { env with Hash := fun _ => .error "marshal" }

/-- The collaborators of `env` with the peer n2 unreachable for a direct send. -/
def peerDownEnv : Env :=
  { env with SendRaw := fun x _ => if x.ID = "n2" then some "n2 unreachable" else none }

/-- A request to create an identity with the config `latestCfg` on the roster n1, n2, n3. -/
def addRequest : AddIdentity :=
  { AccountList := some latestCfg, EntityList := [⟨"n1"⟩, ⟨"n2"⟩, ⟨"n3"⟩] }

/-- The collaborators of `env` with a ledger whose update chain comes back empty. -/
def emptyChainEnv : Env := { env with GetUpdateChain := fun _ _ => .ok [] }

/-- The collaborators of `env` with peers that cannot be reached for the notification
of a new head. -/
def notifyDownEnv : Env :=
  { env with SendISMOthers := fun _ m =>
      match m with
      | .updateSkipBlock _ => some "peer offline"
      | _ => none }

/-- A config whose threshold of three exceeds its single owner. -/
def badCfg : AccountList := { Threshold := 3, Owners := [("alice", ⟨"pkA"⟩)] }

/-- A request to create an identity with the config `badCfg`. -/
def badAddRequest : AddIdentity :=
  { AccountList := some badCfg, EntityList := [⟨"n1"⟩, ⟨"n2"⟩] }

/-- The replica `AddIdentity` creates for `addRequest`, after a proposal of `nextCfg`. -/
def proposedStorage : IdentityStorage :=
  { Latest := some latestCfg, Proposed := some nextCfg, Votes := some [],
    Root := some ⟨"root", [⟨"n1"⟩, ⟨"n2"⟩, ⟨"n3"⟩]⟩, Data := some dataBlock }

/-- The calls that create the identity `"id1"` and propose `nextCfg` for it. -/
def createAndPropose : List Call :=
  [⟨env, client, .addIdentity addRequest⟩,
   ⟨env, client, .proposeConfig ⟨"id1", some nextCfg⟩⟩]

/-- The calls that create `"id1"`, propose `nextCfg`, and bring an approving ballot of
alice and a rejecting ballot of bob, both sent by a client. -/
def createProposeVote : List Call :=
  [⟨env, client, .addIdentity addRequest⟩,
   ⟨env, client, .proposeConfig ⟨"id1", some nextCfg⟩⟩,
   ⟨env, client, .voteConfig ⟨"id1", "alice", some "pkA/digest3"⟩⟩,
   ⟨env, client, .voteConfig ⟨"id1", "bob", none⟩⟩]

/-- The replica of `"id1"` after `createProposeVote`. -/
def tallyStorage : IdentityStorage :=
  { Latest := some latestCfg, Proposed := some nextCfg,
    Votes := some [("alice", some "pkA/digest3"), ("bob", none)],
    Root := some ⟨"root", [⟨"n1"⟩, ⟨"n2"⟩, ⟨"n3"⟩]⟩, Data := some headBlock }

/-- A replica as a peer may send it: a proposal is pending and the `Votes` map is nil. -/
def nilVotesStorage : IdentityStorage :=
  { Latest := some latestCfg, Proposed := some nextCfg, Votes := none,
    Root := some rootBlock, Data := some dataBlock }

/-- The registry of a node on which `nilVotesStorage` was installed. -/
def nilVotesService : Service := ⟨[("id1", nilVotesStorage)]⟩

/-- A replica as a peer may send it, whose `Votes` holds a ballot of carol, who is an
owner in the proposed config only. -/
def strayVoteStorage : IdentityStorage :=
  { Latest := some latestCfg, Proposed := some nextCfg, Votes := some [("carol", none)],
    Root := some rootBlock, Data := some dataBlock }

/-- The registry of a node on which `strayVoteStorage` was installed. -/
def strayVoteService : Service := ⟨[("id1", strayVoteStorage)]⟩

end Sample

/-! ## Facts about Go maps -/

namespace GoMap

variable {V : Type}

theorem get_set_self (m : GoMap V) (k : String) (v : V) : (m.set k v).get k = some v := by
  induction m with
  | nil => simp [set, get]
  | cons kv m ih =>
    obtain ⟨k', v'⟩ := kv
    by_cases hk : k' = k
    · simp [set, get, hk]
    · simp [set, get, hk, ih]

theorem get_set_ne (m : GoMap V) (k k' : String) (v : V) (h : k' ≠ k) :
    (m.set k v).get k' = m.get k' := by
  induction m with
  | nil => simp [set, get, Ne.symm h]
  | cons kv m ih =>
    obtain ⟨k0, v0⟩ := kv
    by_cases hk : k0 = k
    · subst hk
      simp [set, get, Ne.symm h]
    · by_cases hk' : k0 = k'
      · subst hk'
        simp [set, get, hk]
      · simp [set, get, hk, hk', ih]

theorem has_set_self (m : GoMap V) (k : String) (v : V) : (m.set k v).has k = true := by
  simp [has, get_set_self]

end GoMap

theorem searchFrom_eq_neg_one (i : Nat) (el : List Entity) (id : EntityID) :
    SearchFrom i el id = -1 ↔ ∀ x ∈ el, x.ID ≠ id := by
  induction el generalizing i with
  | nil => simp [SearchFrom]
  | cons x xs ih =>
    by_cases hx : x.ID = id
    · simp only [SearchFrom, hx, if_true, List.mem_cons, forall_eq_or_imp, ne_eq,
        not_true_eq_false, false_and, iff_false]
      omega
    · simp [SearchFrom, hx, ih]

/-- The roster lookup returns `-1` exactly for a sender that is no roster peer. -/
theorem search_eq_neg_one (el : List Entity) (id : EntityID) :
    Search el id = -1 ↔ ∀ x ∈ el, x.ID ≠ id :=
  searchFrom_eq_neg_one 0 el id

/-! ## The proposal store -/

/-- C1: `ProposeConfig` succeeds exactly on a known identity, and a successful call
with config `c` leaves that identity with `Proposed = c` and an empty `Votes`, whatever
`Proposed` and `Votes` held before; its `Latest`, `Root` and `Data` and every other
identity are unchanged, and no collaborator is called. -/
theorem proposeConfig_installs_and_resets (s : Service) (e : Entity)
    (p : PropagateProposition) (hok : (s.ProposeConfig e p).out = .reply none) :
    ∃ sid, s.Identities.get p.ID = some sid ∧
      (s.ProposeConfig e p).s.Identities.get p.ID =
        some { Latest := sid.Latest, Proposed := p.AccountList, Votes := some [],
               Root := sid.Root, Data := sid.Data } ∧
      (∀ id, id ≠ p.ID →
        (s.ProposeConfig e p).s.Identities.get id = s.Identities.get id) ∧
      (s.ProposeConfig e p).trace = [] := by
  cases h : s.Identities.get p.ID with
  | none => simp [Service.ProposeConfig, h] at hok
  | some sid =>
    refine ⟨sid, rfl, ?_, ?_, ?_⟩
    · simp [Service.ProposeConfig, h, GoMap.get_set_self]
    · intro id hid
      simp [Service.ProposeConfig, h, GoMap.get_set_ne _ _ _ _ hid]
    · simp [Service.ProposeConfig, h]

/-- Witness of C1 on the sample registry: alice's ballot is discarded. -/
theorem proposeConfig_installs_and_resets_witness :
    (Sample.votedService.ProposeConfig Sample.client ⟨"id1", some Sample.latestCfg⟩).out
        = .reply none ∧
    ∃ sid, Sample.votedService.Identities.get "id1" = some sid ∧
      (Sample.votedService.ProposeConfig Sample.client
          ⟨"id1", some Sample.latestCfg⟩).s.Identities.get "id1" =
        some { Latest := sid.Latest, Proposed := some Sample.latestCfg, Votes := some [],
               Root := sid.Root, Data := sid.Data } ∧
      (∀ id, id ≠ "id1" →
        (Sample.votedService.ProposeConfig Sample.client
          ⟨"id1", some Sample.latestCfg⟩).s.Identities.get id =
          Sample.votedService.Identities.get id) ∧
      (Sample.votedService.ProposeConfig Sample.client
          ⟨"id1", some Sample.latestCfg⟩).trace = [] :=
  ⟨by decide,
   proposeConfig_installs_and_resets Sample.votedService Sample.client
     ⟨"id1", some Sample.latestCfg⟩ (by decide)⟩

/-! ## The voting engine: validation -/

theorem bind_verify_eq_none (env : Env) (owner : Owner) (hash : HashID)
    (sg : Option SchnorrSig)
    (h : ∀ sig, sg = some sig → env.VerifySchnorr owner.Point hash sig = none) :
    sg.bind (env.VerifySchnorr owner.Point hash) = none := by
  cases sg with
  | none => rfl
  | some sig => simpa using h sig rfl

/-- C2: a `VoteConfig` whose signer is not a key of `Latest.Owners` of the identity
returns an error, the unknown-signer one on a known identity, whatever the sender, the
signature (present or absent), the proposed config and the collaborators are; the
registry is unchanged, so no ballot is recorded, and no collaborator is called. -/
theorem voteConfig_unknown_signer (env : Env) (s : Service) (e : Entity) (v : Vote)
    (hsigner : ∀ sid, s.Identities.get v.ID = some sid →
      ∃ latest, sid.Latest = some latest ∧ latest.Owners.get v.Signer = none) :
    ((s.VoteConfig env e v).out = .error "Didn't find signer" ∨
      (s.Identities.get v.ID = none ∧
        (s.VoteConfig env e v).out = .error "Didn't find identity")) ∧
    (s.VoteConfig env e v).s = s ∧ (s.VoteConfig env e v).trace = [] := by
  cases hid : s.Identities.get v.ID with
  | none => simp [Service.VoteConfig, hid]
  | some sid =>
    obtain ⟨latest, hlatest, hno⟩ := hsigner sid hid
    simp [Service.VoteConfig, hid, hlatest, hno]

/-- Witness of C2: carol is an owner in the proposed config only, and her ballot,
validly signed, is refused. -/
theorem voteConfig_unknown_signer_witness :
    Sample.pendingStorage.Proposed = some Sample.nextCfg ∧
    Sample.nextCfg.Owners.get "carol" = some ⟨"pkC"⟩ ∧
    Sample.env.VerifySchnorr "pkC" "digest3" "pkC/digest3" = none ∧
    (Sample.pendingService.VoteConfig Sample.env Sample.client
        ⟨"id1", "carol", some "pkC/digest3"⟩).out = .error "Didn't find signer" ∧
    (Sample.pendingService.VoteConfig Sample.env Sample.client
        ⟨"id1", "carol", some "pkC/digest3"⟩).s = Sample.pendingService ∧
    (Sample.pendingService.VoteConfig Sample.env Sample.client
        ⟨"id1", "carol", some "pkC/digest3"⟩).trace = [] :=
  ⟨by decide, by decide, by decide, by decide,
   (voteConfig_unknown_signer Sample.env Sample.pendingService Sample.client
     ⟨"id1", "carol", some "pkC/digest3"⟩ (by decide)).2⟩

/-- C4: on a known identity with a pending proposal, a ballot of an owner of `Latest`
who has not voted yet, carrying a signature that the verifier rejects for the digest of
`Proposed` and the signer's key stored in `Latest`, fails with the invalid-signature
error; the registry is unchanged (`Votes`, `Proposed`, `Data`), and the only call made
is the one to the verifier: no relay, no ledger append. -/
theorem voteConfig_invalid_signature (env : Env) (s : Service) (e : Entity) (v : Vote)
    (sid : IdentityStorage) (latest proposed : AccountList) (owner : Owner)
    (hash : HashID) (sig : SchnorrSig) (err : String)
    (hid : s.Identities.get v.ID = some sid) (hlatest : sid.Latest = some latest)
    (howner : latest.Owners.get v.Signer = some owner)
    (hproposed : sid.Proposed = some proposed) (hhash : env.Hash proposed = .ok hash)
    (hfresh : (sid.Votes.getD []).has v.Signer = false)
    (hsig : v.Signature = some sig)
    (hbad : env.VerifySchnorr owner.Point hash sig = some err) :
    s.VoteConfig env e v =
      ⟨s, .error ("Wrong signature: " ++ err), [.verifySchnorr owner.Point hash sig]⟩ := by
  simp [Service.VoteConfig, hid, hlatest, howner, hproposed, hhash, hfresh, hsig, hbad,
    verifyTrace]

/-- Witness of C4: bob signs with a signature made for another digest. -/
theorem voteConfig_invalid_signature_witness :
    Sample.pendingService.VoteConfig Sample.env Sample.client
        ⟨"id1", "bob", some "pkB/digest2"⟩ =
      ⟨Sample.pendingService, .error ("Wrong signature: " ++ "bad sig"),
        [.verifySchnorr "pkB" "digest3" "pkB/digest2"]⟩ :=
  voteConfig_invalid_signature Sample.env Sample.pendingService Sample.client
    ⟨"id1", "bob", some "pkB/digest2"⟩ Sample.pendingStorage Sample.latestCfg
    Sample.nextCfg ⟨"pkB"⟩ "digest3" "pkB/digest2" "bad sig"
    (by decide) (by decide) (by decide) (by decide) (by rfl) (by decide) (by rfl)
    (by decide)

/-- Normal form of `VoteConfig` on a ballot that passes the validation, the storage
having no roster block: the ballot is written and the roster lookup panics. -/
theorem voteConfig_valid_no_root (env : Env) (s : Service) (e : Entity) (v : Vote)
    (sid : IdentityStorage) (latest proposed : AccountList) (owner : Owner)
    (hash : HashID) (votes : GoMap (Option SchnorrSig))
    (hid : s.Identities.get v.ID = some sid) (hlatest : sid.Latest = some latest)
    (howner : latest.Owners.get v.Signer = some owner)
    (hproposed : sid.Proposed = some proposed) (hhash : env.Hash proposed = .ok hash)
    (hvotes : sid.Votes = some votes) (hfresh : votes.has v.Signer = false)
    (hsig : ∀ sig, v.Signature = some sig → env.VerifySchnorr owner.Point hash sig = none)
    (hroot : sid.Root = none) :
    s.VoteConfig env e v =
      ⟨⟨s.Identities.set v.ID { sid with Votes := some (votes.set v.Signer v.Signature) }⟩,
        .fault, verifyTrace owner hash v.Signature⟩ := by
  have hb := bind_verify_eq_none env owner hash v.Signature hsig
  simp [Service.VoteConfig, hid, hlatest, howner, hproposed, hhash, hvotes, hfresh, hb,
    hroot]

/-- Normal form of `VoteConfig` on a valid ballot sent by a roster peer. -/
theorem voteConfig_valid_peer (env : Env) (s : Service) (e : Entity) (v : Vote)
    (sid : IdentityStorage) (latest proposed : AccountList) (owner : Owner)
    (hash : HashID) (votes : GoMap (Option SchnorrSig)) (root : SkipBlock)
    (hid : s.Identities.get v.ID = some sid) (hlatest : sid.Latest = some latest)
    (howner : latest.Owners.get v.Signer = some owner)
    (hproposed : sid.Proposed = some proposed) (hhash : env.Hash proposed = .ok hash)
    (hvotes : sid.Votes = some votes) (hfresh : votes.has v.Signer = false)
    (hsig : ∀ sig, v.Signature = some sig → env.VerifySchnorr owner.Point hash sig = none)
    (hroot : sid.Root = some root) (hpeer : Search root.EntityList e.ID ≠ -1) :
    s.VoteConfig env e v =
      ⟨⟨s.Identities.set v.ID { sid with Votes := some (votes.set v.Signer v.Signature) }⟩,
        .reply none, verifyTrace owner hash v.Signature⟩ := by
  have hb := bind_verify_eq_none env owner hash v.Signature hsig
  simp [Service.VoteConfig, hid, hlatest, howner, hproposed, hhash, hvotes, hfresh, hb,
    hroot, hpeer]

/-- Normal form of `VoteConfig` on a valid ballot sent by a client, the ledger append
failing. -/
theorem voteConfig_valid_client_ledger_error (env : Env) (s : Service) (e : Entity)
    (v : Vote) (sid : IdentityStorage) (latest proposed : AccountList) (owner : Owner)
    (hash : HashID) (votes : GoMap (Option SchnorrSig)) (root : SkipBlock) (err : String)
    (hid : s.Identities.get v.ID = some sid) (hlatest : sid.Latest = some latest)
    (howner : latest.Owners.get v.Signer = some owner)
    (hproposed : sid.Proposed = some proposed) (hhash : env.Hash proposed = .ok hash)
    (hvotes : sid.Votes = some votes) (hfresh : votes.has v.Signer = false)
    (hsig : ∀ sig, v.Signature = some sig → env.VerifySchnorr owner.Point hash sig = none)
    (hroot : sid.Root = some root) (hclient : Search root.EntityList e.ID = -1)
    (hledger : env.ProposeData sid.Root sid.Data proposed = .error err) :
    s.VoteConfig env e v =
      ⟨⟨s.Identities.set v.ID { sid with Votes := some (votes.set v.Signer v.Signature) }⟩,
        .error err,
        verifyTrace owner hash v.Signature ++
          [.sendISMOthers root.EntityList (.vote v),
           .proposeData sid.Root sid.Data proposed]⟩ := by
  have hb := bind_verify_eq_none env owner hash v.Signature hsig
  rw [hroot] at hledger
  simp [Service.VoteConfig, hid, hlatest, howner, hproposed, hhash, hvotes, hfresh, hb,
    hroot, hclient, hledger]

/-- Normal form of `VoteConfig` on a valid ballot sent by a client, the ledger append
succeeding with the head `head`: the outcome is the error of the notification of the
peers, or the new head. -/
theorem voteConfig_valid_client_commit (env : Env) (s : Service) (e : Entity)
    (v : Vote) (sid : IdentityStorage) (latest proposed : AccountList) (owner : Owner)
    (hash : HashID) (votes : GoMap (Option SchnorrSig)) (root : SkipBlock)
    (head : Option SkipBlock)
    (hid : s.Identities.get v.ID = some sid) (hlatest : sid.Latest = some latest)
    (howner : latest.Owners.get v.Signer = some owner)
    (hproposed : sid.Proposed = some proposed) (hhash : env.Hash proposed = .ok hash)
    (hvotes : sid.Votes = some votes) (hfresh : votes.has v.Signer = false)
    (hsig : ∀ sig, v.Signature = some sig → env.VerifySchnorr owner.Point hash sig = none)
    (hroot : sid.Root = some root) (hclient : Search root.EntityList e.ID = -1)
    (hledger : env.ProposeData sid.Root sid.Data proposed = .ok head) :
    s.VoteConfig env e v =
      ⟨⟨s.Identities.set v.ID
          { sid with Votes := some (votes.set v.Signer v.Signature), Data := head }⟩,
        (match env.SendISMOthers root.EntityList (.updateSkipBlock ⟨v.ID⟩) with
          | some err => .error err
          | none => .reply (some (.skipBlock head))),
        verifyTrace owner hash v.Signature ++
          [.sendISMOthers root.EntityList (.vote v),
           .proposeData sid.Root sid.Data proposed,
           .sendISMOthers root.EntityList (.updateSkipBlock ⟨v.ID⟩)]⟩ := by
  have hb := bind_verify_eq_none env owner hash v.Signature hsig
  rw [hroot] at hledger
  cases hsend : env.SendISMOthers root.EntityList (.updateSkipBlock ⟨v.ID⟩) <;>
    simp [Service.VoteConfig, hid, hlatest, howner, hproposed, hhash, hvotes, hfresh, hb,
      hroot, hclient, hledger, hsend]

/-- A ballot that passes the validation is written into `Votes`, whatever happens
afterwards; `Latest`, `Proposed` and `Root` of the identity and the other identities
stay as they were. -/
theorem voteConfig_records (env : Env) (s : Service) (e : Entity) (v : Vote)
    (sid : IdentityStorage) (latest proposed : AccountList) (owner : Owner)
    (hash : HashID) (votes : GoMap (Option SchnorrSig))
    (hid : s.Identities.get v.ID = some sid) (hlatest : sid.Latest = some latest)
    (howner : latest.Owners.get v.Signer = some owner)
    (hproposed : sid.Proposed = some proposed) (hhash : env.Hash proposed = .ok hash)
    (hvotes : sid.Votes = some votes) (hfresh : votes.has v.Signer = false)
    (hsig : ∀ sig, v.Signature = some sig → env.VerifySchnorr owner.Point hash sig = none) :
    (∃ sid1, (s.VoteConfig env e v).s.Identities.get v.ID = some sid1 ∧
      sid1.Votes = some (votes.set v.Signer v.Signature) ∧
      sid1.Latest = sid.Latest ∧ sid1.Proposed = sid.Proposed ∧ sid1.Root = sid.Root) ∧
    ∀ id, id ≠ v.ID → (s.VoteConfig env e v).s.Identities.get id = s.Identities.get id := by
  rcases hroot : sid.Root with _ | root
  · rw [voteConfig_valid_no_root env s e v sid latest proposed owner hash votes hid hlatest
      howner hproposed hhash hvotes hfresh hsig hroot]
    refine ⟨⟨_, GoMap.get_set_self _ _ _, rfl, rfl, rfl, hroot⟩, fun id hne => ?_⟩
    exact GoMap.get_set_ne _ _ _ _ hne
  · by_cases hs : Search root.EntityList e.ID = -1
    · cases hpd : env.ProposeData sid.Root sid.Data proposed with
      | error err =>
        rw [voteConfig_valid_client_ledger_error env s e v sid latest proposed owner hash
          votes root err hid hlatest howner hproposed hhash hvotes hfresh hsig hroot hs hpd]
        refine ⟨⟨_, GoMap.get_set_self _ _ _, rfl, rfl, rfl, hroot⟩, fun id hne => ?_⟩
        exact GoMap.get_set_ne _ _ _ _ hne
      | ok head =>
        rw [voteConfig_valid_client_commit env s e v sid latest proposed owner hash
          votes root head hid hlatest howner hproposed hhash hvotes hfresh hsig hroot hs hpd]
        refine ⟨⟨_, GoMap.get_set_self _ _ _, rfl, rfl, rfl, hroot⟩, fun id hne => ?_⟩
        exact GoMap.get_set_ne _ _ _ _ hne
    · rw [voteConfig_valid_peer env s e v sid latest proposed owner hash votes root hid
        hlatest howner hproposed hhash hvotes hfresh hsig hroot hs]
      refine ⟨⟨_, GoMap.get_set_self _ _ _, rfl, rfl, rfl, hroot⟩, fun id hne => ?_⟩
      exact GoMap.get_set_ne _ _ _ _ hne

/-- Counterexample of C3 as stated.  The ballot of alice is recorded for the pending
`Proposed`, and a second `VoteConfig` by alice fails with the error of the digest check
of lines 158-161, not with the duplicate-vote error, when the digest of `Proposed`
cannot be computed; after a `ProposeConfig` has replaced `Proposed`, her ballot with an
absent signature is refused with the same error and `Votes` stays empty; and a signer
whose ballot is in `Votes` without being a key of `Latest.Owners` gets the
unknown-signer error of lines 151-154. -/
theorem voteConfig_duplicate_then_revote_counterexample :
    Sample.votedStorage.Proposed = some Sample.nextCfg ∧
    Sample.votedStorage.Votes = some [("alice", some "pkA/digest3")] ∧
    Sample.votedService.VoteConfig Sample.noDigestEnv Sample.client ⟨"id1", "alice", none⟩ =
      ⟨Sample.votedService, .error "Couldn't get hash", []⟩ ∧
    (Sample.votedService.ProposeConfig Sample.client ⟨"id1", some Sample.latestCfg⟩).out =
      .reply none ∧
    ((Sample.votedService.ProposeConfig Sample.client
        ⟨"id1", some Sample.latestCfg⟩).s.VoteConfig Sample.noDigestEnv Sample.client
        ⟨"id1", "alice", none⟩).out = .error "Couldn't get hash" ∧
    ((Sample.votedService.ProposeConfig Sample.client
        ⟨"id1", some Sample.latestCfg⟩).s.VoteConfig Sample.noDigestEnv Sample.client
        ⟨"id1", "alice", none⟩).s.Identities.get "id1" =
      some { Sample.votedStorage with Proposed := some Sample.latestCfg, Votes := some [] } ∧
    Sample.strayVoteStorage.Votes = some [("carol", none)] ∧
    Sample.strayVoteService.VoteConfig Sample.env Sample.client ⟨"id1", "carol", none⟩ =
      ⟨Sample.strayVoteService, .error "Didn't find signer", []⟩ := by
  decide

/-- C3, amended: when the ballot of a signer who is a key of `Latest.Owners` is recorded
for the pending `Proposed`, whose digest can be computed, a further `VoteConfig` by that
signer, with any signature present or absent and from any sender, fails with the
duplicate-vote error and leaves the registry, hence `Votes`, unchanged; and after a
`ProposeConfig` has replaced `Proposed` by a config `next` whose digest can be
computed, a `VoteConfig` by that signer with a signature that is absent or valid for
the digest of `next` is recorded again, as the only ballot. -/
theorem voteConfig_duplicate_then_revote (env env2 : Env) (s : Service)
    (e e1 e2 : Entity) (id signer : String) (sid : IdentityStorage)
    (latest proposed : AccountList) (owner : Owner) (hash : HashID)
    (votes : GoMap (Option SchnorrSig)) (ballot : Option SchnorrSig)
    (hid : s.Identities.get id = some sid) (hlatest : sid.Latest = some latest)
    (howner : latest.Owners.get signer = some owner)
    (hproposed : sid.Proposed = some proposed) (hhash : env.Hash proposed = .ok hash)
    (hvotes : sid.Votes = some votes) (hvoted : votes.get signer = some ballot) :
    (∀ sig, s.VoteConfig env e ⟨id, signer, sig⟩ =
        ⟨s, .error "Already voted for that block", []⟩) ∧
    (∀ next hash2 sig, env2.Hash next = .ok hash2 →
      (∀ sg, sig = some sg → env2.VerifySchnorr owner.Point hash2 sg = none) →
      ∃ sid1,
        ((s.ProposeConfig e1 ⟨id, some next⟩).s.VoteConfig env2 e2
            ⟨id, signer, sig⟩).s.Identities.get id = some sid1 ∧
        sid1.Votes = some [(signer, sig)] ∧ sid1.Proposed = some next) := by
  constructor
  · intro sig
    simp [Service.VoteConfig, hid, hlatest, howner, hproposed, hhash, hvotes, GoMap.has,
      hvoted]
  · intro next hash2 sig hh hs
    have hget : (s.ProposeConfig e1 ⟨id, some next⟩).s.Identities.get id =
        some { sid with Proposed := some next, Votes := some [] } := by
      simp [Service.ProposeConfig, hid, GoMap.get_set_self]
    obtain ⟨⟨sid1, h1, h2, -, h4, -⟩, -⟩ :=
      voteConfig_records env2 (s.ProposeConfig e1 ⟨id, some next⟩).s e2 ⟨id, signer, sig⟩
        { sid with Proposed := some next, Votes := some [] } latest next owner hash2 []
        hget hlatest howner rfl hh rfl rfl hs
    exact ⟨sid1, h1, h2, h4⟩

/-- Witness of C3, amended: the state is the one a first, committed ballot of alice leaves. -/
theorem voteConfig_duplicate_then_revote_witness :
    (Sample.pendingService.VoteConfig Sample.env Sample.client
        ⟨"id1", "alice", some "pkA/digest3"⟩).s = Sample.committedService ∧
    ((∀ sig, Sample.committedService.VoteConfig Sample.env Sample.peer
          ⟨"id1", "alice", sig⟩ =
        ⟨Sample.committedService, .error "Already voted for that block", []⟩) ∧
    (∀ next hash2 sig, Sample.env.Hash next = .ok hash2 →
      (∀ sg, sig = some sg → Sample.env.VerifySchnorr "pkA" hash2 sg = none) →
      ∃ sid1,
        ((Sample.committedService.ProposeConfig Sample.client
            ⟨"id1", some next⟩).s.VoteConfig Sample.env Sample.client
            ⟨"id1", "alice", sig⟩).s.Identities.get "id1" = some sid1 ∧
        sid1.Votes = some [("alice", sig)] ∧ sid1.Proposed = some next)) :=
  ⟨by decide,
   voteConfig_duplicate_then_revote Sample.env Sample.env Sample.committedService
     Sample.peer Sample.client Sample.client "id1" "alice" Sample.committedStorage
     Sample.latestCfg Sample.nextCfg ⟨"pkA"⟩ "digest3" [("alice", some "pkA/digest3")]
     (some "pkA/digest3") (by decide) (by decide) (by decide) (by decide) (by rfl)
     (by decide) (by decide)⟩

/-- Counterexample of C5 as stated: bob is an owner of `Latest` and has not voted on the
pending proposal of the known identity `"id1"`; his ballot with an absent signature is
refused with the error of the digest check of lines 158-161 and is not recorded when
the digest of `Proposed` cannot be computed; and on a replica whose `Votes` map is nil
the ballot of alice with an absent signature is not recorded either, the write of line
172 panicking. -/
theorem voteConfig_absent_signature_counterexample :
    Sample.pendingService.Identities.get "id1" = some Sample.pendingStorage ∧
    Sample.pendingStorage.Latest = some Sample.latestCfg ∧
    Sample.latestCfg.Owners.get "bob" = some ⟨"pkB"⟩ ∧
    Sample.pendingStorage.Proposed = some Sample.nextCfg ∧
    (Sample.pendingStorage.Votes.getD []).has "bob" = false ∧
    Sample.pendingService.VoteConfig Sample.noDigestEnv Sample.client ⟨"id1", "bob", none⟩ =
      ⟨Sample.pendingService, .error "Couldn't get hash", []⟩ ∧
    Sample.nilVotesStorage.Votes = none ∧
    Sample.nilVotesService.VoteConfig Sample.env Sample.client ⟨"id1", "alice", none⟩ =
      ⟨Sample.nilVotesService, .fault, []⟩ := by
  decide

/-- C5, amended: on a known identity with a pending proposal whose digest can be
computed and with an initialised `Votes` map, a ballot
with an absent signature of an owner of `Latest` who has not voted yet is accepted
without consulting the verifier (no call to it is made, and the outcome is the same
for every verifier): the ballot is written into `Votes` under the signer's name as an
explicit absent-signature entry, so that the signer then counts as having voted, and
an error the call returns can only come from the ledger append or from the
notification of the peers. -/
theorem voteConfig_absent_signature_recorded (env : Env) (s : Service) (e : Entity)
    (v : Vote) (sid : IdentityStorage) (latest proposed : AccountList) (owner : Owner)
    (hash : HashID) (votes : GoMap (Option SchnorrSig))
    (hid : s.Identities.get v.ID = some sid) (hlatest : sid.Latest = some latest)
    (howner : latest.Owners.get v.Signer = some owner)
    (hproposed : sid.Proposed = some proposed) (hhash : env.Hash proposed = .ok hash)
    (hvotes : sid.Votes = some votes) (hfresh : votes.has v.Signer = false)
    (hsig : v.Signature = none) :
    (∀ pub h sg, Event.verifySchnorr pub h sg ∉ (s.VoteConfig env e v).trace) ∧
    (∀ f, s.VoteConfig { env with VerifySchnorr := f } e v = s.VoteConfig env e v) ∧
    (∃ sid1, (s.VoteConfig env e v).s.Identities.get v.ID = some sid1 ∧
      sid1.Votes = some (votes.set v.Signer none) ∧
      (votes.set v.Signer none).get v.Signer = some none ∧
      (votes.set v.Signer none).has v.Signer = true) ∧
    (∀ msg, (s.VoteConfig env e v).out = .error msg →
      env.ProposeData sid.Root sid.Data proposed = .error msg ∨
      ∃ root, sid.Root = some root ∧
        env.SendISMOthers root.EntityList (.updateSkipBlock ⟨v.ID⟩) = some msg) := by
  have hs : ∀ sig, v.Signature = some sig → env.VerifySchnorr owner.Point hash sig = none := by
    intro sig h
    rw [hsig] at h
    cases h
  have htr : verifyTrace owner hash v.Signature = [] := by rw [hsig]; rfl
  refine ⟨?_, ?_, ?_, ?_⟩
  · intro pub h sg
    rcases hroot : sid.Root with _ | root
    · rw [voteConfig_valid_no_root env s e v sid latest proposed owner hash votes hid hlatest
        howner hproposed hhash hvotes hfresh hs hroot, htr]
      simp
    · by_cases hc : Search root.EntityList e.ID = -1
      · cases hpd : env.ProposeData sid.Root sid.Data proposed with
        | error err =>
          rw [voteConfig_valid_client_ledger_error env s e v sid latest proposed owner hash
            votes root err hid hlatest howner hproposed hhash hvotes hfresh hs hroot hc hpd,
            htr]
          simp
        | ok head =>
          rw [voteConfig_valid_client_commit env s e v sid latest proposed owner hash
            votes root head hid hlatest howner hproposed hhash hvotes hfresh hs hroot hc hpd,
            htr]
          simp
      · rw [voteConfig_valid_peer env s e v sid latest proposed owner hash votes root hid
          hlatest howner hproposed hhash hvotes hfresh hs hroot hc, htr]
        simp
  · intro f
    simp [Service.VoteConfig, hid, hlatest, howner, hproposed, hhash, hvotes, hfresh, hsig,
      verifyTrace]
  · obtain ⟨⟨sid1, h1, h2, -⟩, -⟩ := voteConfig_records env s e v sid latest proposed owner
      hash votes hid hlatest howner hproposed hhash hvotes hfresh hs
    rw [hsig] at h2
    exact ⟨sid1, h1, h2, GoMap.get_set_self _ _ _, GoMap.has_set_self _ _ _⟩
  · intro msg hout
    rcases hroot : sid.Root with _ | root
    · rw [voteConfig_valid_no_root env s e v sid latest proposed owner hash votes hid hlatest
        howner hproposed hhash hvotes hfresh hs hroot] at hout
      simp at hout
    · by_cases hc : Search root.EntityList e.ID = -1
      · cases hpd : env.ProposeData sid.Root sid.Data proposed with
        | error err =>
          rw [voteConfig_valid_client_ledger_error env s e v sid latest proposed owner hash
            votes root err hid hlatest howner hproposed hhash hvotes hfresh hs hroot hc hpd]
            at hout
          left
          rw [← hroot, hpd]
          simp at hout
          rw [hout]
        | ok head =>
          rw [voteConfig_valid_client_commit env s e v sid latest proposed owner hash
            votes root head hid hlatest howner hproposed hhash hvotes hfresh hs hroot hc hpd]
            at hout
          right
          refine ⟨root, rfl, ?_⟩
          cases hsend : env.SendISMOthers root.EntityList (.updateSkipBlock ⟨v.ID⟩) with
          | none => simp [hsend] at hout
          | some err2 =>
            simp [hsend] at hout
            rw [hout]
      · rw [voteConfig_valid_peer env s e v sid latest proposed owner hash votes root hid
          hlatest howner hproposed hhash hvotes hfresh hs hroot hc] at hout
        simp at hout

/-- Witness of C5, amended: bob rejects the proposal with an absent signature. -/
theorem voteConfig_absent_signature_recorded_witness :
    ∃ sid1, (Sample.pendingService.VoteConfig Sample.env Sample.peer
        ⟨"id1", "bob", none⟩).s.Identities.get "id1" = some sid1 ∧
      sid1.Votes = some (GoMap.set [] "bob" none) ∧
      (GoMap.set ([] : GoMap (Option SchnorrSig)) "bob" none).get "bob" = some none ∧
      (GoMap.set ([] : GoMap (Option SchnorrSig)) "bob" none).has "bob" = true :=
  (voteConfig_absent_signature_recorded Sample.env Sample.pendingService Sample.peer
    ⟨"id1", "bob", none⟩ Sample.pendingStorage Sample.latestCfg Sample.nextCfg ⟨"pkB"⟩
    "digest3" [] (by decide) (by decide) (by decide) (by decide) (by rfl) (by decide)
    (by decide) (by decide)).2.2.1

/-! ## The voting engine: order of the checks -/

theorem wrongSignature_ne (err lit : String) (hl : lit.data.head? ≠ some 'W') :
    "Wrong signature: " ++ err ≠ lit := by
  intro h
  apply hl
  rw [← h]
  rfl

/-- The six validation errors of `VoteConfig` are pairwise different texts. -/
theorem voteConfig_errors_distinct (err : String) :
    List.Pairwise (fun a b : String => a ≠ b)
      ["Didn't find identity", "Didn't find signer", "No proposed block",
       "Couldn't get hash", "Already voted for that block", "Wrong signature: " ++ err] := by
  have hw : ∀ lit : String, lit.data.head? ≠ some 'W' → lit ≠ "Wrong signature: " ++ err :=
    fun lit hl => (wrongSignature_ne err lit hl).symm
  have h1 := hw "Didn't find identity" (by decide)
  have h2 := hw "Didn't find signer" (by decide)
  have h3 := hw "No proposed block" (by decide)
  have h4 := hw "Couldn't get hash" (by decide)
  have h5 := hw "Already voted for that block" (by decide)
  simp [h1, h2, h3, h4, h5]

/-- Counterexample of C6 as stated: alice has already voted and now sends a forged
signature, so the checks (4) and (5) of the list of five are violated and (1) to (3)
hold; the digest of `Proposed` cannot be computed, and the call returns the error of
the digest check, which is not the duplicate-vote error of the first violated one. -/
theorem voteConfig_check_order_counterexample :
    Sample.votedService.Identities.get "id1" = some Sample.votedStorage ∧
    Sample.votedStorage.Latest = some Sample.latestCfg ∧
    Sample.latestCfg.Owners.get "alice" = some ⟨"pkA"⟩ ∧
    Sample.votedStorage.Proposed = some Sample.nextCfg ∧
    (Sample.votedStorage.Votes.getD []).has "alice" = true ∧
    Sample.noDigestEnv.VerifySchnorr "pkA" "digest3" "forged" = some "bad sig" ∧
    Sample.votedService.VoteConfig Sample.noDigestEnv Sample.client
        ⟨"id1", "alice", some "forged"⟩ =
      ⟨Sample.votedService, .error "Couldn't get hash", []⟩ ∧
    Out.error "Couldn't get hash" ≠ Out.error "Already voted for that block" := by
  decide

/-- C6, amended: `VoteConfig` makes six checks in a fixed order, (1) the identity
exists, (2) the signer is a key of `Latest.Owners`, (3) `Proposed` is present, (3a) the
digest of `Proposed` can be computed, (4) the signer has not voted yet, (5) a present
signature verifies against that digest; the call returns the error of the first check
that fails, whatever the later ones would give, leaving the registry unchanged, and the
six errors are pairwise distinct. -/
theorem voteConfig_check_order (env : Env) (s : Service) (e : Entity) (v : Vote) :
    (s.Identities.get v.ID = none →
      s.VoteConfig env e v = ⟨s, .error "Didn't find identity", []⟩) ∧
    (∀ sid latest, s.Identities.get v.ID = some sid → sid.Latest = some latest →
      (latest.Owners.get v.Signer = none →
        s.VoteConfig env e v = ⟨s, .error "Didn't find signer", []⟩) ∧
      (∀ owner, latest.Owners.get v.Signer = some owner →
        (sid.Proposed = none →
          s.VoteConfig env e v = ⟨s, .error "No proposed block", []⟩) ∧
        (∀ proposed, sid.Proposed = some proposed →
          (∀ x, env.Hash proposed = .error x →
            s.VoteConfig env e v = ⟨s, .error "Couldn't get hash", []⟩) ∧
          (∀ hash, env.Hash proposed = .ok hash →
            ((sid.Votes.getD []).has v.Signer = true →
              s.VoteConfig env e v = ⟨s, .error "Already voted for that block", []⟩) ∧
            ((sid.Votes.getD []).has v.Signer = false →
              ∀ sig err, v.Signature = some sig →
                env.VerifySchnorr owner.Point hash sig = some err →
                s.VoteConfig env e v =
                  ⟨s, .error ("Wrong signature: " ++ err),
                    [.verifySchnorr owner.Point hash sig]⟩))))) ∧
    (∀ err, List.Pairwise (fun a b : String => a ≠ b)
      ["Didn't find identity", "Didn't find signer", "No proposed block",
       "Couldn't get hash", "Already voted for that block", "Wrong signature: " ++ err]) := by
  refine ⟨fun h => by simp [Service.VoteConfig, h], ?_, voteConfig_errors_distinct⟩
  intro sid latest hid hlatest
  refine ⟨fun h => by simp [Service.VoteConfig, hid, hlatest, h], ?_⟩
  intro owner howner
  refine ⟨fun h => by simp [Service.VoteConfig, hid, hlatest, howner, h], ?_⟩
  intro proposed hproposed
  refine ⟨fun x h => by simp [Service.VoteConfig, hid, hlatest, howner, hproposed, h], ?_⟩
  intro hash hhash
  refine ⟨fun h => by simp [Service.VoteConfig, hid, hlatest, howner, hproposed, hhash, h],
    ?_⟩
  intro hfresh sig err hsig hbad
  simp [Service.VoteConfig, hid, hlatest, howner, hproposed, hhash, hfresh, hsig, hbad,
    verifyTrace]

/-- Witness of C6, amended: with a computable digest the forged second ballot of alice
gets the duplicate-vote error, the signature not being looked at. -/
theorem voteConfig_check_order_witness :
    Sample.votedService.VoteConfig Sample.env Sample.client ⟨"id1", "alice", some "forged"⟩ =
      ⟨Sample.votedService, .error "Already voted for that block", []⟩ :=
  ((((voteConfig_check_order Sample.env Sample.votedService Sample.client
    ⟨"id1", "alice", some "forged"⟩).2.1 Sample.votedStorage Sample.latestCfg
    (by decide) (by decide)).2 ⟨"pkA"⟩ (by decide)).2 Sample.nextCfg (by decide)).2
    "digest3" (by rfl) |>.1 <| by decide

/-! ## The voting engine: commit -/

/-- Counterexample of C7 as stated: alice's valid ballot, sent by a client, is committed
(the ledger returns a head and the call returns it); afterwards `ConfigUpdate` returns
the old `Latest` config, which is not the config that was `Proposed`, and
`ConfigNewCheck` still returns that proposal. -/
theorem commit_round_trip_counterexample :
    Sample.pendingStorage.Proposed = some Sample.nextCfg ∧
    (Sample.pendingService.VoteConfig Sample.env Sample.client
        ⟨"id1", "alice", some "pkA/digest3"⟩).out =
      .reply (some (.skipBlock (some Sample.headBlock))) ∧
    ((Sample.pendingService.VoteConfig Sample.env Sample.client
        ⟨"id1", "alice", some "pkA/digest3"⟩).s.ConfigUpdate Sample.client
        ⟨"id1", none⟩).out =
      .reply (some (.configUpdate ⟨"id1", some Sample.latestCfg⟩)) ∧
    Sample.latestCfg ≠ Sample.nextCfg ∧
    ((Sample.pendingService.VoteConfig Sample.env Sample.client
        ⟨"id1", "alice", some "pkA/digest3"⟩).s.ConfigNewCheck Sample.client
        ⟨"id1", none⟩).out =
      .reply (some (.configNewCheck ⟨"id1", some Sample.nextCfg⟩)) := by
  decide

/-- C7, amended: after a `VoteConfig` of a client whose valid ballot is committed (the
ledger append succeeds with the head `head`), `ConfigUpdate` for that identity returns
the `Latest` config the identity had before the call, `ConfigNewCheck` returns the
config that was `Proposed` at commit time, which stays pending, and `Data` is `head`. -/
theorem commit_keeps_latest_and_proposed (env : Env) (s : Service) (e e1 e2 : Entity)
    (v : Vote) (cu : ConfigUpdate) (cnc : ConfigNewCheck)
    (sid : IdentityStorage) (latest proposed : AccountList) (owner : Owner)
    (hash : HashID) (votes : GoMap (Option SchnorrSig)) (root : SkipBlock)
    (head : Option SkipBlock)
    (hid : s.Identities.get v.ID = some sid) (hlatest : sid.Latest = some latest)
    (howner : latest.Owners.get v.Signer = some owner)
    (hproposed : sid.Proposed = some proposed) (hhash : env.Hash proposed = .ok hash)
    (hvotes : sid.Votes = some votes) (hfresh : votes.has v.Signer = false)
    (hsig : ∀ sig, v.Signature = some sig → env.VerifySchnorr owner.Point hash sig = none)
    (hroot : sid.Root = some root) (hclient : ∀ x ∈ root.EntityList, x.ID ≠ e.ID)
    (hledger : env.ProposeData sid.Root sid.Data proposed = .ok head)
    (hcu : cu.ID = v.ID) (hcnc : cnc.ID = v.ID) :
    ((s.VoteConfig env e v).s.ConfigUpdate e1 cu).out =
      .reply (some (.configUpdate ⟨v.ID, some latest⟩)) ∧
    ((s.VoteConfig env e v).s.ConfigNewCheck e2 cnc).out =
      .reply (some (.configNewCheck ⟨v.ID, some proposed⟩)) ∧
    ∃ sid1, (s.VoteConfig env e v).s.Identities.get v.ID = some sid1 ∧ sid1.Data = head := by
  rw [voteConfig_valid_client_commit env s e v sid latest proposed owner hash votes root
    head hid hlatest howner hproposed hhash hvotes hfresh hsig hroot
    ((search_eq_neg_one _ _).2 hclient) hledger]
  simp [Service.ConfigUpdate, Service.ConfigNewCheck, hcu, hcnc, GoMap.get_set_self,
    hlatest, hproposed]

/-- Witness of C7, amended, on the committed ballot of alice. -/
theorem commit_keeps_latest_and_proposed_witness :
    ((Sample.pendingService.VoteConfig Sample.env Sample.client
        ⟨"id1", "alice", some "pkA/digest3"⟩).s.ConfigUpdate Sample.peer
        ⟨"id1", none⟩).out =
      .reply (some (.configUpdate ⟨"id1", some Sample.latestCfg⟩)) ∧
    ((Sample.pendingService.VoteConfig Sample.env Sample.client
        ⟨"id1", "alice", some "pkA/digest3"⟩).s.ConfigNewCheck Sample.peer
        ⟨"id1", none⟩).out =
      .reply (some (.configNewCheck ⟨"id1", some Sample.nextCfg⟩)) ∧
    ∃ sid1, (Sample.pendingService.VoteConfig Sample.env Sample.client
        ⟨"id1", "alice", some "pkA/digest3"⟩).s.Identities.get "id1" = some sid1 ∧
      sid1.Data = some Sample.headBlock :=
  commit_keeps_latest_and_proposed Sample.env Sample.pendingService Sample.client
    Sample.peer Sample.peer ⟨"id1", "alice", some "pkA/digest3"⟩ ⟨"id1", none⟩ ⟨"id1", none⟩
    Sample.pendingStorage Sample.latestCfg Sample.nextCfg ⟨"pkA"⟩ "digest3" []
    Sample.rootBlock (some Sample.headBlock) (by decide) (by decide) (by decide)
    (by decide) (by rfl) (by decide) (by decide) (by decide) (by decide) (by decide)
    (by rfl) (by decide) (by decide)

/-- On a replica with an initialised `Votes` map and a roster block, for a ballot that
passes the validation and whose sender is no roster peer,
`VoteConfig` relays the ballot and then asks the ledger to append `Proposed` onto the
current `Data`, whatever `Latest.Threshold`, the number of owners and the recorded
votes are, whether the signature is present or absent, and whatever the relay returns
(its result is not read); when the append succeeds with a head, `Data` of the identity
is that head. -/
theorem voteConfig_client_attempts_append (env : Env) (s : Service) (e : Entity)
    (v : Vote) (sid : IdentityStorage) (latest proposed : AccountList) (owner : Owner)
    (hash : HashID) (votes : GoMap (Option SchnorrSig)) (root : SkipBlock)
    (hid : s.Identities.get v.ID = some sid) (hlatest : sid.Latest = some latest)
    (howner : latest.Owners.get v.Signer = some owner)
    (hproposed : sid.Proposed = some proposed) (hhash : env.Hash proposed = .ok hash)
    (hvotes : sid.Votes = some votes) (hfresh : votes.has v.Signer = false)
    (hsig : ∀ sig, v.Signature = some sig → env.VerifySchnorr owner.Point hash sig = none)
    (hroot : sid.Root = some root) (hclient : ∀ x ∈ root.EntityList, x.ID ≠ e.ID) :
    Event.sendISMOthers root.EntityList (.vote v) ∈ (s.VoteConfig env e v).trace ∧
    Event.proposeData sid.Root sid.Data proposed ∈ (s.VoteConfig env e v).trace ∧
    (∀ head, env.ProposeData sid.Root sid.Data proposed = .ok head →
      ∃ sid1, (s.VoteConfig env e v).s.Identities.get v.ID = some sid1 ∧
        sid1.Data = head) := by
  have hc := (search_eq_neg_one root.EntityList e.ID).2 hclient
  cases hpd : env.ProposeData sid.Root sid.Data proposed with
  | error err =>
    rw [voteConfig_valid_client_ledger_error env s e v sid latest proposed owner hash
      votes root err hid hlatest howner hproposed hhash hvotes hfresh hsig hroot hc hpd]
    simp
  | ok head =>
    rw [voteConfig_valid_client_commit env s e v sid latest proposed owner hash
      votes root head hid hlatest howner hproposed hhash hvotes hfresh hsig hroot hc hpd]
    simp [GoMap.get_set_self]

/-- A first ballot, a reject, below the threshold of two, whose relay fails, is followed
by the append. -/
theorem voteConfig_client_attempts_append_witness :
    Sample.latestCfg.Threshold = 2 ∧
    Sample.relayDownEnv.SendISMOthers Sample.rootBlock.EntityList
      (.vote ⟨"id1", "bob", none⟩) = some "peer offline" ∧
    Event.sendISMOthers Sample.rootBlock.EntityList (.vote ⟨"id1", "bob", none⟩) ∈
      (Sample.pendingService.VoteConfig Sample.relayDownEnv Sample.client
        ⟨"id1", "bob", none⟩).trace ∧
    Event.proposeData (some Sample.rootBlock) (some Sample.dataBlock) Sample.nextCfg ∈
      (Sample.pendingService.VoteConfig Sample.relayDownEnv Sample.client
        ⟨"id1", "bob", none⟩).trace ∧
    (∀ head, Sample.relayDownEnv.ProposeData (some Sample.rootBlock)
        (some Sample.dataBlock) Sample.nextCfg = .ok head →
      ∃ sid1, (Sample.pendingService.VoteConfig Sample.relayDownEnv Sample.client
          ⟨"id1", "bob", none⟩).s.Identities.get "id1" = some sid1 ∧
        sid1.Data = head) :=
  ⟨by decide, by decide,
   voteConfig_client_attempts_append Sample.relayDownEnv Sample.pendingService
     Sample.client ⟨"id1", "bob", none⟩ Sample.pendingStorage Sample.latestCfg
     Sample.nextCfg ⟨"pkB"⟩ "digest3" [] Sample.rootBlock (by decide) (by decide)
     (by decide) (by decide) (by rfl) (by decide) (by decide) (by decide) (by decide)
     (by decide)⟩

/-- On a replica with an initialised `Votes` map and a roster block, for a ballot that
passes the validation and whose sender is a roster peer,
`VoteConfig` writes the ballot into `Votes` and does nothing else: it returns no block
and no error, the identity keeps its `Latest`, `Proposed`, `Root` and `Data`, the other
identities are unchanged, and the only call made is the one to the verifier for a
present signature: no message is sent and the ledger is not called. -/
theorem voteConfig_peer_only_records (env : Env) (s : Service) (e : Entity)
    (v : Vote) (sid : IdentityStorage) (latest proposed : AccountList) (owner : Owner)
    (hash : HashID) (votes : GoMap (Option SchnorrSig)) (root : SkipBlock)
    (hid : s.Identities.get v.ID = some sid) (hlatest : sid.Latest = some latest)
    (howner : latest.Owners.get v.Signer = some owner)
    (hproposed : sid.Proposed = some proposed) (hhash : env.Hash proposed = .ok hash)
    (hvotes : sid.Votes = some votes) (hfresh : votes.has v.Signer = false)
    (hsig : ∀ sig, v.Signature = some sig → env.VerifySchnorr owner.Point hash sig = none)
    (hroot : sid.Root = some root) (hpeer : ∃ x ∈ root.EntityList, x.ID = e.ID) :
    (s.VoteConfig env e v).out = .reply none ∧
    (s.VoteConfig env e v).s.Identities.get v.ID =
      some { Latest := sid.Latest, Proposed := sid.Proposed,
             Votes := some (votes.set v.Signer v.Signature),
             Root := sid.Root, Data := sid.Data } ∧
    (∀ id, id ≠ v.ID → (s.VoteConfig env e v).s.Identities.get id = s.Identities.get id) ∧
    (s.VoteConfig env e v).trace = verifyTrace owner hash v.Signature ∧
    (∀ ev ∈ (s.VoteConfig env e v).trace, ev.isSend = false ∧ ev.isLedger = false) := by
  have hp : Search root.EntityList e.ID ≠ -1 := by
    intro h
    obtain ⟨x, hx, hxe⟩ := hpeer
    exact (search_eq_neg_one root.EntityList e.ID).1 h x hx hxe
  rw [voteConfig_valid_peer env s e v sid latest proposed owner hash votes root hid
    hlatest howner hproposed hhash hvotes hfresh hsig hroot hp]
  refine ⟨rfl, GoMap.get_set_self _ _ _, fun id hne => GoMap.get_set_ne _ _ _ _ hne, rfl, ?_⟩
  intro ev hev
  cases hs : v.Signature with
  | none => simp [hs, verifyTrace] at hev
  | some sig =>
    simp only [hs, verifyTrace, List.mem_singleton] at hev
    subst hev
    exact ⟨rfl, rfl⟩

/-- The peer n2 relays the valid ballot of alice. -/
theorem voteConfig_peer_only_records_witness :
    Sample.pendingService.VoteConfig Sample.env Sample.peer
        ⟨"id1", "alice", some "pkA/digest3"⟩ =
      ⟨⟨[("id1", { Sample.pendingStorage with
            Votes := some [("alice", some "pkA/digest3")] })]⟩,
        .reply none, [.verifySchnorr "pkA" "digest3" "pkA/digest3"]⟩ ∧
    ((Sample.pendingService.VoteConfig Sample.env Sample.peer
        ⟨"id1", "alice", some "pkA/digest3"⟩).out = .reply none ∧
    (Sample.pendingService.VoteConfig Sample.env Sample.peer
        ⟨"id1", "alice", some "pkA/digest3"⟩).s.Identities.get "id1" =
      some { Latest := Sample.pendingStorage.Latest, Proposed := Sample.pendingStorage.Proposed,
             Votes := some (GoMap.set [] "alice" (some "pkA/digest3")),
             Root := Sample.pendingStorage.Root, Data := Sample.pendingStorage.Data } ∧
    (∀ id, id ≠ "id1" →
      (Sample.pendingService.VoteConfig Sample.env Sample.peer
        ⟨"id1", "alice", some "pkA/digest3"⟩).s.Identities.get id =
      Sample.pendingService.Identities.get id) ∧
    (Sample.pendingService.VoteConfig Sample.env Sample.peer
        ⟨"id1", "alice", some "pkA/digest3"⟩).trace =
      verifyTrace ⟨"pkA"⟩ "digest3" (some "pkA/digest3") ∧
    (∀ ev ∈ (Sample.pendingService.VoteConfig Sample.env Sample.peer
        ⟨"id1", "alice", some "pkA/digest3"⟩).trace,
      ev.isSend = false ∧ ev.isLedger = false)) :=
  ⟨by decide,
   voteConfig_peer_only_records Sample.env Sample.pendingService Sample.peer
     ⟨"id1", "alice", some "pkA/digest3"⟩ Sample.pendingStorage Sample.latestCfg
     Sample.nextCfg ⟨"pkA"⟩ "digest3" [] Sample.rootBlock (by decide) (by decide)
     (by decide) (by decide) (by rfl) (by decide) (by decide) (by decide) (by decide)
     (by decide)⟩

/-- C10: for a valid ballot sent by a client, when the ledger append fails `VoteConfig`
returns exactly the error of the ledger, `Data` is unchanged and the ballot stays in
`Votes`; a retry of the vote by the same signer, with any signature and from any
sender, is then rejected with the duplicate-vote error and changes nothing. -/
theorem voteConfig_ledger_failure_keeps_ballot (env : Env) (s : Service) (e : Entity)
    (v : Vote) (sid : IdentityStorage) (latest proposed : AccountList) (owner : Owner)
    (hash : HashID) (votes : GoMap (Option SchnorrSig)) (root : SkipBlock) (err : String)
    (hid : s.Identities.get v.ID = some sid) (hlatest : sid.Latest = some latest)
    (howner : latest.Owners.get v.Signer = some owner)
    (hproposed : sid.Proposed = some proposed) (hhash : env.Hash proposed = .ok hash)
    (hvotes : sid.Votes = some votes) (hfresh : votes.has v.Signer = false)
    (hsig : ∀ sig, v.Signature = some sig → env.VerifySchnorr owner.Point hash sig = none)
    (hroot : sid.Root = some root) (hclient : ∀ x ∈ root.EntityList, x.ID ≠ e.ID)
    (hledger : env.ProposeData sid.Root sid.Data proposed = .error err) :
    (s.VoteConfig env e v).out = .error err ∧
    (s.VoteConfig env e v).s.Identities.get v.ID =
      some { Latest := sid.Latest, Proposed := sid.Proposed,
             Votes := some (votes.set v.Signer v.Signature),
             Root := sid.Root, Data := sid.Data } ∧
    (votes.set v.Signer v.Signature).get v.Signer = some v.Signature ∧
    (∀ env2 e2 sig2, env2.Hash = env.Hash →
      (s.VoteConfig env e v).s.VoteConfig env2 e2 ⟨v.ID, v.Signer, sig2⟩ =
        ⟨(s.VoteConfig env e v).s, .error "Already voted for that block", []⟩) := by
  have hc := (search_eq_neg_one root.EntityList e.ID).2 hclient
  rw [voteConfig_valid_client_ledger_error env s e v sid latest proposed owner hash
    votes root err hid hlatest howner hproposed hhash hvotes hfresh hsig hroot hc hledger]
  refine ⟨rfl, GoMap.get_set_self _ _ _, GoMap.get_set_self _ _ _, ?_⟩
  intro env2 e2 sig2 hh
  simp [Service.VoteConfig, GoMap.get_set_self, hlatest, howner, hproposed, hh, hhash,
    GoMap.has_set_self]

/-- Witness of C10: the ledger is down when alice's valid ballot arrives from a client. -/
theorem voteConfig_ledger_failure_keeps_ballot_witness :
    (Sample.pendingService.VoteConfig Sample.ledgerDownEnv Sample.client
        ⟨"id1", "alice", some "pkA/digest3"⟩).out = .error "ledger down" ∧
    (Sample.pendingService.VoteConfig Sample.ledgerDownEnv Sample.client
        ⟨"id1", "alice", some "pkA/digest3"⟩).s.Identities.get "id1" =
      some { Latest := Sample.pendingStorage.Latest, Proposed := Sample.pendingStorage.Proposed,
             Votes := some (GoMap.set [] "alice" (some "pkA/digest3")),
             Root := Sample.pendingStorage.Root, Data := Sample.pendingStorage.Data } ∧
    (GoMap.set ([] : GoMap (Option SchnorrSig)) "alice" (some "pkA/digest3")).get "alice" =
      some (some "pkA/digest3") ∧
    (∀ env2 e2 sig2, env2.Hash = Sample.ledgerDownEnv.Hash →
      (Sample.pendingService.VoteConfig Sample.ledgerDownEnv Sample.client
        ⟨"id1", "alice", some "pkA/digest3"⟩).s.VoteConfig env2 e2 ⟨"id1", "alice", sig2⟩ =
        ⟨(Sample.pendingService.VoteConfig Sample.ledgerDownEnv Sample.client
          ⟨"id1", "alice", some "pkA/digest3"⟩).s,
          .error "Already voted for that block", []⟩) :=
  voteConfig_ledger_failure_keeps_ballot Sample.ledgerDownEnv Sample.pendingService
    Sample.client ⟨"id1", "alice", some "pkA/digest3"⟩ Sample.pendingStorage
    Sample.latestCfg Sample.nextCfg ⟨"pkA"⟩ "digest3" [] Sample.rootBlock "ledger down"
    (by decide) (by decide) (by decide) (by decide) (by rfl) (by decide) (by decide)
    (by decide) (by decide) (by decide) (by rfl)

/-! ## The registry: installing and reading -/

/-- C11: for an arriving storage with a `Data` block, `PropagateIdentity` fails with
the already-exists error exactly when the registry has an entry under the hash of that
block, and then the registry is unchanged; otherwise it succeeds, the registry maps
that hash to the arriving storage and is unchanged at every other id, and a second
delivery of the same identity fails with the already-exists error. -/
theorem propagateIdentity_once (s : Service) (e e2 : Entity) (pi : PropagateIdentity)
    (d : SkipBlock) (hdata : pi.IdentityStorage.Data = some d) :
    ((s.PropagateIdentity e pi).out = .error "That identity already exists here" ↔
      s.Identities.has d.Hash = true) ∧
    (s.Identities.has d.Hash = true →
      s.PropagateIdentity e pi = ⟨s, .error "That identity already exists here", []⟩) ∧
    (s.Identities.has d.Hash = false →
      (s.PropagateIdentity e pi).out = .reply none ∧
      (s.PropagateIdentity e pi).s.Identities.get d.Hash = some pi.IdentityStorage ∧
      (∀ id, id ≠ d.Hash →
        (s.PropagateIdentity e pi).s.Identities.get id = s.Identities.get id) ∧
      (s.PropagateIdentity e pi).s.PropagateIdentity e2 pi =
        ⟨(s.PropagateIdentity e pi).s, .error "That identity already exists here", []⟩) := by
  cases hhas : s.Identities.has d.Hash with
  | true => simp [Service.PropagateIdentity, hdata, hhas]
  | false =>
    simp [Service.PropagateIdentity, hdata, hhas, GoMap.get_set_self, GoMap.has_set_self]
    intro id hne
    exact GoMap.get_set_ne _ _ _ _ hne

/-- Witness of C11: the replica of `"id1"` arrives twice at a node that starts. -/
theorem propagateIdentity_once_witness :
    (Service.empty.PropagateIdentity Sample.peer ⟨Sample.pendingStorage⟩).out = .reply none ∧
    (Service.empty.PropagateIdentity Sample.peer ⟨Sample.pendingStorage⟩).s.Identities.get
      "id1" = some Sample.pendingStorage ∧
    (∀ id, id ≠ "id1" →
      (Service.empty.PropagateIdentity Sample.peer ⟨Sample.pendingStorage⟩).s.Identities.get id
        = Service.empty.Identities.get id) ∧
    (Service.empty.PropagateIdentity Sample.peer ⟨Sample.pendingStorage⟩).s.PropagateIdentity
        Sample.peer ⟨Sample.pendingStorage⟩ =
      ⟨(Service.empty.PropagateIdentity Sample.peer ⟨Sample.pendingStorage⟩).s,
        .error "That identity already exists here", []⟩ :=
  (propagateIdentity_once Service.empty Sample.peer Sample.peer ⟨Sample.pendingStorage⟩
    Sample.dataBlock (by decide)).2.2 (by decide)

/-- C12: `ConfigNewCheck` and `ConfigUpdate` are pure reads: they leave the registry
unchanged and call no collaborator; they fail, with the not-found error, if and only if
the id is not in the registry; on success `ConfigNewCheck` returns the id with the
identity's `Proposed` (nil when no proposal is pending) and `ConfigUpdate` the id with
the identity's `Latest`. -/
theorem config_queries_pure (s : Service) (e : Entity) (cnc : ConfigNewCheck)
    (cu : ConfigUpdate) :
    ((s.ConfigNewCheck e cnc).s = s ∧ (s.ConfigNewCheck e cnc).trace = [] ∧
      ((∃ msg, (s.ConfigNewCheck e cnc).out = .error msg) ↔
        s.Identities.get cnc.ID = none) ∧
      (s.Identities.get cnc.ID = none →
        (s.ConfigNewCheck e cnc).out = .error "Didn't find Identity") ∧
      (∀ sid, s.Identities.get cnc.ID = some sid →
        (s.ConfigNewCheck e cnc).out =
          .reply (some (.configNewCheck ⟨cnc.ID, sid.Proposed⟩)))) ∧
    ((s.ConfigUpdate e cu).s = s ∧ (s.ConfigUpdate e cu).trace = [] ∧
      ((∃ msg, (s.ConfigUpdate e cu).out = .error msg) ↔
        s.Identities.get cu.ID = none) ∧
      (s.Identities.get cu.ID = none →
        (s.ConfigUpdate e cu).out = .error "Didn't find Identity") ∧
      (∀ sid, s.Identities.get cu.ID = some sid →
        (s.ConfigUpdate e cu).out = .reply (some (.configUpdate ⟨cu.ID, sid.Latest⟩)))) := by
  constructor
  · cases h : s.Identities.get cnc.ID <;> simp [Service.ConfigNewCheck, h]
  · cases h : s.Identities.get cu.ID <;> simp [Service.ConfigUpdate, h]

/-- Witness of C12: the reads on the sample registry and on an unknown id. -/
theorem config_queries_pure_witness :
    (Sample.pendingService.ConfigNewCheck Sample.client ⟨"id1", none⟩).out =
      .reply (some (.configNewCheck ⟨"id1", some Sample.nextCfg⟩)) ∧
    (Sample.pendingService.ConfigUpdate Sample.client ⟨"nobody", none⟩).out =
      .error "Didn't find Identity" :=
  ⟨(config_queries_pure Sample.pendingService Sample.client ⟨"id1", none⟩
      ⟨"nobody", none⟩).1.2.2.2.2 Sample.pendingStorage (by decide),
   (config_queries_pure Sample.pendingService Sample.client ⟨"id1", none⟩
      ⟨"nobody", none⟩).2.2.2.2.1 (by decide)⟩

/-! ## The registry: creation -/

/-- The loop of `AddIdentity` over the roster, the message being creatable: every peer
but this node is sent the message, and the texts of the failed sends are collected. -/
theorem sendIdentity_eq (env : Env) (ids : IdentityStorage)
    (hmsg : env.CreateServiceMessage (.propagateIdentity ⟨ids⟩) = none)
    (el : List Entity) (errorStr : List String) (tr : List Event) :
    Service.sendIdentity env ids el errorStr tr =
      (.ok (errorStr ++ failedSends env (otherPeers env el) (.propagateIdentity ⟨ids⟩)),
       tr ++ (otherPeers env el).map (fun x => Event.sendRaw x (.propagateIdentity ⟨ids⟩))) := by
  induction el generalizing errorStr tr with
  | nil => simp [Service.sendIdentity, otherPeers, failedSends]
  | cons x xs ih =>
    by_cases hx : x.ID = env.self
    · simp only [Service.sendIdentity, hx, if_true, ih]
      simp [otherPeers, hx]
    · cases hs : env.SendRaw x (.propagateIdentity ⟨ids⟩) with
      | none =>
        simp only [Service.sendIdentity, hx, if_false, hmsg, hs, ih]
        simp [otherPeers, failedSends, hx, hs]
      | some err =>
        simp only [Service.sendIdentity, hx, if_false, hmsg, hs, ih]
        simp [otherPeers, failedSends, hx, hs]

/-- C13: in `AddIdentity`, once both ledger blocks were created (and the message to
the peers can be built), every roster peer other than the node itself is sent the
identity, in roster order, whether or not earlier sends failed; when some sends failed
the call returns one error joining the text of each failed send, otherwise the two
blocks; in both cases the registry holds the new storage, whose `Latest` is the initial
config, under the hash of its `Data` block, and is unchanged at every other id. -/
theorem addIdentity_send_failures_kept (env : Env) (s : Service) (e : Entity)
    (ai : AddIdentity) (root0 : Option SkipBlock) (r d : SkipBlock)
    (hroster : env.CreateRoster ai.EntityList = .ok root0)
    (hdata : env.CreateData root0 ai.AccountList = .ok (some r, some d))
    (hmsg : env.CreateServiceMessage
      (.propagateIdentity ⟨createdStorage ai (some r) (some d)⟩) = none) :
    (s.AddIdentity env e ai).trace =
      [.createRoster ai.EntityList, .createData root0 ai.AccountList] ++
        (otherPeers env r.EntityList).map
          (fun x => Event.sendRaw x (.propagateIdentity ⟨createdStorage ai (some r) (some d)⟩)) ∧
    (s.AddIdentity env e ai).out =
      (if (failedSends env (otherPeers env r.EntityList)
            (.propagateIdentity ⟨createdStorage ai (some r) (some d)⟩)).length > 0 then
        .error ("\n".intercalate (failedSends env (otherPeers env r.EntityList)
          (.propagateIdentity ⟨createdStorage ai (some r) (some d)⟩)))
      else .reply (some (.addIdentityReply ⟨some r, some d⟩))) ∧
    (s.AddIdentity env e ai).s.Identities.get d.Hash =
      some (createdStorage ai (some r) (some d)) ∧
    (createdStorage ai (some r) (some d)).Latest = ai.AccountList ∧
    (∀ id, id ≠ d.Hash →
      (s.AddIdentity env e ai).s.Identities.get id = s.Identities.get id) := by
  have hloop := sendIdentity_eq env (createdStorage ai (some r) (some d)) hmsg r.EntityList []
    [.createRoster ai.EntityList, .createData root0 ai.AccountList]
  simp only [createdStorage] at hloop hmsg ⊢
  simp only [Service.AddIdentity, hroster, hdata, List.singleton_append, hloop, List.nil_append]
  split <;> simp [GoMap.get_set_self, *] <;>
    exact fun id hne => GoMap.get_set_ne _ _ _ _ hne

/-- Witness of C13: the send to n2 fails, n3 is still sent the identity, n1 is the
node itself; the call returns the text of the failed send and the identity is stored. -/
theorem addIdentity_send_failures_kept_witness :
    (Service.empty.AddIdentity Sample.peerDownEnv Sample.client Sample.addRequest).out =
      .error "n2 unreachable" ∧
    otherPeers Sample.peerDownEnv [⟨"n1"⟩, ⟨"n2"⟩, ⟨"n3"⟩] = [⟨"n2"⟩, ⟨"n3"⟩] ∧
    ((Service.empty.AddIdentity Sample.peerDownEnv Sample.client Sample.addRequest).trace =
      [.createRoster Sample.addRequest.EntityList,
       .createData (some ⟨"root", [⟨"n1"⟩, ⟨"n2"⟩, ⟨"n3"⟩]⟩) Sample.addRequest.AccountList] ++
        (otherPeers Sample.peerDownEnv [⟨"n1"⟩, ⟨"n2"⟩, ⟨"n3"⟩]).map
          (fun x => Event.sendRaw x (.propagateIdentity ⟨createdStorage Sample.addRequest
            (some ⟨"root", [⟨"n1"⟩, ⟨"n2"⟩, ⟨"n3"⟩]⟩) (some Sample.dataBlock)⟩))) ∧
    (Service.empty.AddIdentity Sample.peerDownEnv Sample.client
        Sample.addRequest).s.Identities.get "id1" =
      some (createdStorage Sample.addRequest (some ⟨"root", [⟨"n1"⟩, ⟨"n2"⟩, ⟨"n3"⟩]⟩)
        (some Sample.dataBlock)) :=
  ⟨by decide, by decide,
   (addIdentity_send_failures_kept Sample.peerDownEnv Service.empty Sample.client
     Sample.addRequest (some ⟨"root", [⟨"n1"⟩, ⟨"n2"⟩, ⟨"n3"⟩]⟩)
     ⟨"root", [⟨"n1"⟩, ⟨"n2"⟩, ⟨"n3"⟩]⟩ Sample.dataBlock (by rfl) (by rfl) (by rfl)).1,
   (addIdentity_send_failures_kept Sample.peerDownEnv Service.empty Sample.client
     Sample.addRequest (some ⟨"root", [⟨"n1"⟩, ⟨"n2"⟩, ⟨"n3"⟩]⟩)
     ⟨"root", [⟨"n1"⟩, ⟨"n2"⟩, ⟨"n3"⟩]⟩ Sample.dataBlock (by rfl) (by rfl) (by rfl)).2.2.1⟩

/-! ## What a call can change -/

theorem GoMap.get_set_cases {V : Type} (m : GoMap V) (k id : String) (v w : V)
    (h : (m.set k v).get id = some w) :
    (id = k ∧ w = v) ∨ (id ≠ k ∧ m.get id = some w) := by
  by_cases hk : id = k
  · subst hk
    rw [GoMap.get_set_self] at h
    exact Or.inl ⟨rfl, (Option.some.inj h).symm⟩
  · rw [GoMap.get_set_ne _ _ _ _ hk] at h
    exact Or.inr ⟨hk, h⟩

/-- The registry after `AddIdentity`: unchanged, or with the created storage under the
hash of its `Data` block. -/
theorem addIdentity_state (env : Env) (s : Service) (e : Entity) (ai : AddIdentity) :
    (s.AddIdentity env e ai).s = s ∨
    ∃ root d, (s.AddIdentity env e ai).s =
      ⟨s.Identities.set d.Hash (createdStorage ai root (some d))⟩ := by
  cases h1 : env.CreateRoster ai.EntityList with
  | error err => left; simp [Service.AddIdentity, h1]
  | ok root0 =>
    cases h2 : env.CreateData root0 ai.AccountList with
    | error err => left; simp [Service.AddIdentity, h1, h2]
    | ok pr =>
      obtain ⟨root, data⟩ := pr
      cases data with
      | none => left; simp [Service.AddIdentity, h1, h2]
      | some d =>
        right
        refine ⟨root, d, ?_⟩
        cases root with
        | none => simp [Service.AddIdentity, h1, h2, createdStorage]
        | some r =>
          simp only [Service.AddIdentity, h1, h2, createdStorage]
          split
          · rfl
          · split <;> rfl

/-- The registry after `PropagateIdentity`: unchanged, or with the arriving storage
under the hash of its `Data` block. -/
theorem propagateIdentity_state (s : Service) (e : Entity) (pi : PropagateIdentity) :
    (s.PropagateIdentity e pi).s = s ∨
    ∃ d, pi.IdentityStorage.Data = some d ∧
      (s.PropagateIdentity e pi).s = ⟨s.Identities.set d.Hash pi.IdentityStorage⟩ := by
  cases hd : pi.IdentityStorage.Data with
  | none => left; simp [Service.PropagateIdentity, hd]
  | some d =>
    cases hh : s.Identities.has d.Hash with
    | true => left; simp [Service.PropagateIdentity, hd, hh]
    | false => right; exact ⟨d, rfl, by simp [Service.PropagateIdentity, hd, hh]⟩

/-- The registry after `ProposeConfig`: unchanged, or with the new proposal and an
empty `Votes` on the identity. -/
theorem proposeConfig_state (s : Service) (e : Entity) (p : PropagateProposition) :
    (s.ProposeConfig e p).s = s ∨
    ∃ sid, s.Identities.get p.ID = some sid ∧
      (s.ProposeConfig e p).s =
        ⟨s.Identities.set p.ID { sid with Proposed := p.AccountList, Votes := some [] }⟩ := by
  cases h : s.Identities.get p.ID with
  | none => left; simp [Service.ProposeConfig, h]
  | some sid => right; exact ⟨sid, rfl, by simp [Service.ProposeConfig, h]⟩

/-- The registry after `PropagateSkipBlock`: unchanged, or with a new `Data` on the
identity. -/
theorem propagateSkipBlock_state (env : Env) (s : Service) (e : Entity)
    (psb : UpdateSkipBlock) :
    (s.PropagateSkipBlock env e psb).s = s ∨
    ∃ sid b, s.Identities.get psb.ID = some sid ∧
      (s.PropagateSkipBlock env e psb).s = ⟨s.Identities.set psb.ID { sid with Data := b }⟩ := by
  cases h : s.Identities.get psb.ID with
  | none => left; simp [Service.PropagateSkipBlock, h]
  | some sid =>
    cases hd : sid.Data with
    | none => left; simp [Service.PropagateSkipBlock, h, hd]
    | some d =>
      cases hg : env.GetUpdateChain sid.Root d.Hash with
      | error err => left; simp [Service.PropagateSkipBlock, h, hd, hg]
      | ok update =>
        cases hl : update.getLast? with
        | none => left; simp [Service.PropagateSkipBlock, h, hd, hg, hl]
        | some b =>
          right
          exact ⟨sid, b, rfl, by simp [Service.PropagateSkipBlock, h, hd, hg, hl]⟩

/-- The registry after `VoteConfig`: unchanged, or, the ballot having passed the
validation, with the ballot written into `Votes` of the identity and possibly a new
`Data`. -/
theorem voteConfig_state (env : Env) (s : Service) (e : Entity) (v : Vote) :
    (s.VoteConfig env e v).s = s ∨
    ∃ sid latest owner proposed hash votes data,
      s.Identities.get v.ID = some sid ∧ sid.Latest = some latest ∧
      latest.Owners.get v.Signer = some owner ∧ sid.Proposed = some proposed ∧
      env.Hash proposed = .ok hash ∧ sid.Votes = some votes ∧
      votes.has v.Signer = false ∧
      (∀ sig, v.Signature = some sig → env.VerifySchnorr owner.Point hash sig = none) ∧
      (s.VoteConfig env e v).s =
        ⟨s.Identities.set v.ID
          { sid with Votes := some (votes.set v.Signer v.Signature), Data := data }⟩ := by
  cases hid : s.Identities.get v.ID with
  | none => left; simp [Service.VoteConfig, hid]
  | some sid =>
  cases hlatest : sid.Latest with
  | none => left; simp [Service.VoteConfig, hid, hlatest]
  | some latest =>
  cases howner : latest.Owners.get v.Signer with
  | none => left; simp [Service.VoteConfig, hid, hlatest, howner]
  | some owner =>
  cases hproposed : sid.Proposed with
  | none => left; simp [Service.VoteConfig, hid, hlatest, howner, hproposed]
  | some proposed =>
  cases hhash : env.Hash proposed with
  | error x => left; simp [Service.VoteConfig, hid, hlatest, howner, hproposed, hhash]
  | ok hash =>
  cases hb : v.Signature.bind (env.VerifySchnorr owner.Point hash) with
  | some err =>
    left
    by_cases hf : (sid.Votes.getD []).has v.Signer = true <;>
      simp [Service.VoteConfig, hid, hlatest, howner, hproposed, hhash, hb, hf]
  | none =>
  cases hvotes : sid.Votes with
  | none =>
    left
    simp [Service.VoteConfig, hid, hlatest, howner, hproposed, hhash, hb, hvotes,
      GoMap.has, GoMap.get]
  | some votes =>
  cases hfresh : votes.has v.Signer with
  | true =>
    left
    simp [Service.VoteConfig, hid, hlatest, howner, hproposed, hhash, hvotes, hfresh]
  | false =>
  right
  have hsig : ∀ sig, v.Signature = some sig →
      env.VerifySchnorr owner.Point hash sig = none := by
    intro sig hs
    simpa [hs] using hb
  rcases hroot : sid.Root with _ | root
  · exact ⟨sid, latest, owner, proposed, hash, votes, sid.Data, rfl, hlatest, howner,
      hproposed, hhash, hvotes, hfresh, hsig,
      by rw [voteConfig_valid_no_root env s e v sid latest proposed owner hash votes hid
        hlatest howner hproposed hhash hvotes hfresh hsig hroot]⟩
  · by_cases hs : Search root.EntityList e.ID = -1
    · cases hpd : env.ProposeData sid.Root sid.Data proposed with
      | error err =>
        exact ⟨sid, latest, owner, proposed, hash, votes, sid.Data, rfl, hlatest, howner,
          hproposed, hhash, hvotes, hfresh, hsig,
          by rw [voteConfig_valid_client_ledger_error env s e v sid latest proposed owner
            hash votes root err hid hlatest howner hproposed hhash hvotes hfresh hsig hroot
            hs hpd]⟩
      | ok head =>
        exact ⟨sid, latest, owner, proposed, hash, votes, head, rfl, hlatest, howner,
          hproposed, hhash, hvotes, hfresh, hsig,
          by rw [voteConfig_valid_client_commit env s e v sid latest proposed owner
            hash votes root head hid hlatest howner hproposed hhash hvotes hfresh hsig hroot
            hs hpd]⟩
    · exact ⟨sid, latest, owner, proposed, hash, votes, sid.Data, rfl, hlatest, howner,
        hproposed, hhash, hvotes, hfresh, hsig,
        by rw [voteConfig_valid_peer env s e v sid latest proposed owner hash votes root hid
          hlatest howner hproposed hhash hvotes hfresh hsig hroot hs]⟩

/-! ## Advancing the head -/

/-- What `PropagateSkipBlock` does in each case: an unknown id and a failing ledger
call give an error and leave the registry unchanged; a non-empty update sequence
replaces `Data` by its last block, leaving `Latest`, `Proposed`, `Votes` and `Root` as
they were; an empty update sequence makes the index `len(gucr.Update)-1` panic. -/
theorem propagateSkipBlock_cases (env : Env) (s : Service) (e : Entity)
    (psb : UpdateSkipBlock) :
    (s.Identities.get psb.ID = none →
      s.PropagateSkipBlock env e psb = ⟨s, .error "Didn't find identity", []⟩) ∧
    (∀ sid d, s.Identities.get psb.ID = some sid → sid.Data = some d →
      (∀ err, env.GetUpdateChain sid.Root d.Hash = .error err →
        s.PropagateSkipBlock env e psb =
          ⟨s, .error err, [.getUpdateChain sid.Root d.Hash]⟩) ∧
      (∀ update b, env.GetUpdateChain sid.Root d.Hash = .ok (update ++ [b]) →
        s.PropagateSkipBlock env e psb =
          ⟨⟨s.Identities.set psb.ID
              { Latest := sid.Latest, Proposed := sid.Proposed, Votes := sid.Votes,
                Root := sid.Root, Data := b }⟩,
            .reply none, [.getUpdateChain sid.Root d.Hash]⟩) ∧
      (env.GetUpdateChain sid.Root d.Hash = .ok [] →
        s.PropagateSkipBlock env e psb =
          ⟨s, .fault, [.getUpdateChain sid.Root d.Hash]⟩)) := by
  refine ⟨fun h => by simp [Service.PropagateSkipBlock, h], ?_⟩
  intro sid d hid hd
  refine ⟨fun err h => by simp [Service.PropagateSkipBlock, hid, hd, h],
    fun update b h => by simp [Service.PropagateSkipBlock, hid, hd, h],
    fun h => by simp [Service.PropagateSkipBlock, hid, hd, h]⟩

/-- C14, the failing input: on the known identity `"id1"` the ledger answers the
update-chain query with an empty sequence and no error; `PropagateSkipBlock` then
indexes the sequence at `len-1` and panics, instead of staying within bounds. -/
theorem propagateSkipBlock_empty_update_faults :
    Sample.pendingService.Identities.get "id1" = some Sample.pendingStorage ∧
    Sample.emptyChainEnv.GetUpdateChain Sample.pendingStorage.Root "id1" = .ok [] ∧
    Sample.pendingService.PropagateSkipBlock Sample.emptyChainEnv Sample.peer ⟨"id1"⟩ =
      ⟨Sample.pendingService, .fault, [.getUpdateChain (some Sample.rootBlock) "id1"]⟩ :=
  ⟨by decide, by rfl, by decide⟩

/-- C15: when a valid ballot sent by a client was appended to the ledger, which
returned the head `head`, and the notification of the roster peers then fails, the
call returns the error of the notification and the local change stays: `Data` of the
identity is `head` and the ballot is in `Votes`; the other fields and the other
identities are as before. -/
theorem voteConfig_notify_failure_keeps_commit (env : Env) (s : Service) (e : Entity)
    (v : Vote) (sid : IdentityStorage) (latest proposed : AccountList) (owner : Owner)
    (hash : HashID) (votes : GoMap (Option SchnorrSig)) (root : SkipBlock)
    (head : Option SkipBlock) (err : String)
    (hid : s.Identities.get v.ID = some sid) (hlatest : sid.Latest = some latest)
    (howner : latest.Owners.get v.Signer = some owner)
    (hproposed : sid.Proposed = some proposed) (hhash : env.Hash proposed = .ok hash)
    (hvotes : sid.Votes = some votes) (hfresh : votes.has v.Signer = false)
    (hsig : ∀ sig, v.Signature = some sig → env.VerifySchnorr owner.Point hash sig = none)
    (hroot : sid.Root = some root) (hclient : ∀ x ∈ root.EntityList, x.ID ≠ e.ID)
    (hledger : env.ProposeData sid.Root sid.Data proposed = .ok head)
    (hnotify : env.SendISMOthers root.EntityList (.updateSkipBlock ⟨v.ID⟩) = some err) :
    (s.VoteConfig env e v).out = .error err ∧
    (s.VoteConfig env e v).s.Identities.get v.ID =
      some { Latest := sid.Latest, Proposed := sid.Proposed,
             Votes := some (votes.set v.Signer v.Signature),
             Root := sid.Root, Data := head } ∧
    (votes.set v.Signer v.Signature).get v.Signer = some v.Signature ∧
    (∀ id, id ≠ v.ID → (s.VoteConfig env e v).s.Identities.get id = s.Identities.get id) := by
  have hc := (search_eq_neg_one root.EntityList e.ID).2 hclient
  rw [voteConfig_valid_client_commit env s e v sid latest proposed owner hash votes root
    head hid hlatest howner hproposed hhash hvotes hfresh hsig hroot hc hledger, hnotify]
  exact ⟨rfl, GoMap.get_set_self _ _ _, GoMap.get_set_self _ _ _,
    fun id hne => GoMap.get_set_ne _ _ _ _ hne⟩

/-- Witness of C15: alice's ballot is committed while the peers are unreachable. -/
theorem voteConfig_notify_failure_keeps_commit_witness :
    (Sample.pendingService.VoteConfig Sample.notifyDownEnv Sample.client
        ⟨"id1", "alice", some "pkA/digest3"⟩).out = .error "peer offline" ∧
    (Sample.pendingService.VoteConfig Sample.notifyDownEnv Sample.client
        ⟨"id1", "alice", some "pkA/digest3"⟩).s.Identities.get "id1" =
      some { Latest := Sample.pendingStorage.Latest, Proposed := Sample.pendingStorage.Proposed,
             Votes := some (GoMap.set [] "alice" (some "pkA/digest3")),
             Root := Sample.pendingStorage.Root, Data := some Sample.headBlock } ∧
    (GoMap.set ([] : GoMap (Option SchnorrSig)) "alice" (some "pkA/digest3")).get "alice" =
      some (some "pkA/digest3") ∧
    (∀ id, id ≠ "id1" →
      (Sample.pendingService.VoteConfig Sample.notifyDownEnv Sample.client
        ⟨"id1", "alice", some "pkA/digest3"⟩).s.Identities.get id =
      Sample.pendingService.Identities.get id) :=
  voteConfig_notify_failure_keeps_commit Sample.notifyDownEnv Sample.pendingService
    Sample.client ⟨"id1", "alice", some "pkA/digest3"⟩ Sample.pendingStorage
    Sample.latestCfg Sample.nextCfg ⟨"pkA"⟩ "digest3" [] Sample.rootBlock
    (some Sample.headBlock) "peer offline"
    (by decide) (by decide) (by decide) (by decide) (by rfl) (by decide) (by decide)
    (by decide) (by decide) (by decide) (by rfl) (by rfl)

/-! ## Invariants over sequences of calls -/

theorem configNewCheck_state (s : Service) (e : Entity) (cnc : ConfigNewCheck) :
    (s.ConfigNewCheck e cnc).s = s := by
  cases h : s.Identities.get cnc.ID <;> simp [Service.ConfigNewCheck, h]

theorem configUpdate_state (s : Service) (e : Entity) (cu : ConfigUpdate) :
    (s.ConfigUpdate e cu).s = s := by
  cases h : s.Identities.get cu.ID <;> simp [Service.ConfigUpdate, h]

/-- A property of registries that every permitted call keeps holds after every run of
permitted calls that does not panic. -/
theorem run_invariant (Inv : Service → Prop) (ok : Call → Prop)
    (hstep : ∀ s c, ok c → Inv s → Inv (s.handle c.env c.sender c.req).s) :
    ∀ (calls : List Call) (s s1 : Service), Inv s → (∀ c ∈ calls, ok c) →
      s.run calls = some s1 → Inv s1 := by
  intro calls
  induction calls with
  | nil =>
    intro s s1 hinv _ hrun
    simp only [Service.run, Option.some.injEq] at hrun
    exact hrun ▸ hinv
  | cons c cs ih =>
    intro s s1 hinv hok hrun
    simp only [Service.run] at hrun
    split at hrun
    · cases hrun
    · exact ih _ s1 (hstep s c (hok c (List.mem_cons_self _ _)) hinv)
        (fun c1 h1 => hok c1 (List.mem_cons_of_mem _ h1)) hrun

/-- A property of the replicas that holds before an assignment `Identities[k] = v`
and for `v` holds after it. -/
theorem forall_get_set (P : IdentityStorage → Prop) (m : GoMap IdentityStorage)
    (k : String) (v : IdentityStorage)
    (hm : ∀ id sid, m.get id = some sid → P sid) (hv : P v) :
    ∀ id sid, (m.set k v).get id = some sid → P sid := by
  intro id sid h
  rcases GoMap.get_set_cases m k id v sid h with ⟨-, rfl⟩ | ⟨-, h2⟩
  · exact hv
  · exact hm id sid h2

/-- Every call keeps the property that the configs in the registry satisfy `P`,
when the configs the request carries satisfy `P`. -/
theorem handle_configsSatisfy (P : AccountList → Prop) (env : Env) (s : Service)
    (e : Entity) (req : Request) (hreq : ∀ al ∈ req.configs, P al)
    (hinv : ∀ id sid, s.Identities.get id = some sid → sid.configsSatisfy P) :
    ∀ id sid, (s.handle env e req).s.Identities.get id = some sid →
      sid.configsSatisfy P := by
  cases req with
  | addIdentity m =>
    rcases addIdentity_state env s e m with h | ⟨root, d, h⟩
    · simpa [Service.handle, h] using hinv
    · simp only [Service.handle, h]
      refine forall_get_set _ _ _ _ hinv ⟨fun al hal => hreq al ?_, fun al hal => ?_⟩
      · simpa [Request.configs, createdStorage] using hal
      · simp [createdStorage] at hal
  | propagateIdentity m =>
    rcases propagateIdentity_state s e m with h | ⟨d, -, h⟩
    · simpa [Service.handle, h] using hinv
    · simp only [Service.handle, h]
      refine forall_get_set _ _ _ _ hinv ⟨fun al hal => hreq al ?_, fun al hal => hreq al ?_⟩
      · simp [Request.configs, hal]
      · simp [Request.configs, hal]
  | proposeConfig m =>
    rcases proposeConfig_state s e m with h | ⟨sid0, h0, h⟩
    · simpa [Service.handle, h] using hinv
    · simp only [Service.handle, h]
      refine forall_get_set _ _ _ _ hinv ⟨fun al hal => (hinv _ _ h0).1 al hal,
        fun al hal => hreq al ?_⟩
      simpa [Request.configs] using hal
  | configNewCheck m => simpa [Service.handle, configNewCheck_state] using hinv
  | configUpdate m => simpa [Service.handle, configUpdate_state] using hinv
  | voteConfig m =>
    rcases voteConfig_state env s e m with h |
      ⟨sid0, latest, owner, proposed, hash, votes, data, h0, -, -, -, -, -, -, -, h⟩
    · simpa [Service.handle, h] using hinv
    · simp only [Service.handle, h]
      exact forall_get_set _ _ _ _ hinv ⟨fun al hal => (hinv _ _ h0).1 al hal,
        fun al hal => (hinv _ _ h0).2 al hal⟩
  | propagateSkipBlock m =>
    rcases propagateSkipBlock_state env s e m with h | ⟨sid0, b, h0, h⟩
    · simpa [Service.handle, h] using hinv
    · simp only [Service.handle, h]
      exact forall_get_set _ _ _ _ hinv ⟨fun al hal => (hinv _ _ h0).1 al hal,
        fun al hal => (hinv _ _ h0).2 al hal⟩

/-- Counterexample of C16 as stated: on a node that starts, `AddIdentity` with a config
of threshold three and one owner succeeds and stores that config as `Latest`, and a
`ProposeConfig` with the same config stores it as `Proposed`. -/
theorem threshold_invariant_counterexample :
    Sample.badCfg.Threshold = 3 ∧ Sample.badCfg.Owners.length = 1 ∧
    (Service.empty.AddIdentity Sample.env Sample.client Sample.badAddRequest).out =
      .reply (some (.addIdentityReply
        ⟨some ⟨"root", [⟨"n1"⟩, ⟨"n2"⟩]⟩, some Sample.dataBlock⟩)) ∧
    Service.empty.run
        [⟨Sample.env, Sample.client, .addIdentity Sample.badAddRequest⟩,
         ⟨Sample.env, Sample.client, .proposeConfig ⟨"id1", some Sample.badCfg⟩⟩] =
      some ⟨[("id1", { Latest := some Sample.badCfg, Proposed := some Sample.badCfg,
                       Votes := some [], Root := some ⟨"root", [⟨"n1"⟩, ⟨"n2"⟩]⟩,
                       Data := some Sample.dataBlock })]⟩ ∧
    Sample.badCfg.thresholdOk = false := by
  decide

/-- C16, amended: in every state reached from the empty registry through calls of
the handlers, never panicking, in which every config carried by a request (the initial
config of `AddIdentity`, the `Latest` and `Proposed` of a storage arriving with
`PropagateIdentity`, the config of `ProposeConfig`) has `Threshold` at most its number
of owners, every config held as `Latest` or as `Proposed` has `Threshold` at most its
number of owners: the handlers store the configs they are given and check none. -/
theorem threshold_invariant_of_inputs (calls : List Call) (s : Service)
    (hin : ∀ c ∈ calls, ∀ al ∈ c.req.configs, al.thresholdOk = true)
    (hrun : Service.empty.run calls = some s) :
    ∀ id sid al, s.Identities.get id = some sid →
      (sid.Latest = some al ∨ sid.Proposed = some al) →
      al.Threshold ≤ (al.Owners.length : Int) := by
  have hinv := run_invariant
    (fun s => ∀ id sid, s.Identities.get id = some sid →
      sid.configsSatisfy (fun al => al.thresholdOk = true))
    (fun c => ∀ al ∈ c.req.configs, al.thresholdOk = true)
    (fun s c hc hs => handle_configsSatisfy _ c.env s c.sender c.req hc hs)
    calls Service.empty s (by intro id sid h; simp [Service.empty, GoMap.get] at h) hin hrun
  intro id sid al hid hal
  have h := hinv id sid hid
  rcases hal with hal | hal
  · simpa [AccountList.thresholdOk] using h.1 al hal
  · simpa [AccountList.thresholdOk] using h.2 al hal

/-- Witness of C16, amended: an identity created with `latestCfg`, then a proposal
of `nextCfg`. -/
theorem threshold_invariant_of_inputs_witness :
    Service.empty.run Sample.createAndPropose = some ⟨[("id1", Sample.proposedStorage)]⟩ ∧
    Sample.nextCfg.Threshold ≤ (Sample.nextCfg.Owners.length : Int) :=
  ⟨by decide,
   threshold_invariant_of_inputs Sample.createAndPropose ⟨[("id1", Sample.proposedStorage)]⟩
     (by decide) (by decide) "id1" Sample.proposedStorage Sample.nextCfg (by decide)
     (Or.inr rfl)⟩

/-! ## Latest is never reassigned -/

theorem latest_kept_of_set (m : GoMap IdentityStorage) (k id : String)
    (new old sid : IdentityStorage) (hid : m.get id = some sid)
    (hk : m.get k = some old) (hl : new.Latest = old.Latest) :
    ∃ sid1, (m.set k new).get id = some sid1 ∧ sid1.Latest = sid.Latest := by
  by_cases h : id = k
  · subst h
    rw [hid] at hk
    cases hk
    exact ⟨new, GoMap.get_set_self _ _ _, hl⟩
  · exact ⟨sid, by rw [GoMap.get_set_ne _ _ _ _ h]; exact hid, rfl⟩

/-- C17: an identity that is in the registry keeps its `Latest` config, hence the names
allowed to vote and the `Threshold`, through every call of `ProposeConfig`, of
`VoteConfig` (from any sender, with any answer of the collaborators), of
`PropagateSkipBlock`, of `ConfigNewCheck` and of `ConfigUpdate`. -/
theorem latest_never_reassigned (s : Service) (id : String) (sid : IdentityStorage)
    (hid : s.Identities.get id = some sid) :
    (∀ e p, ∃ sid1, (s.ProposeConfig e p).s.Identities.get id = some sid1 ∧
      sid1.Latest = sid.Latest) ∧
    (∀ env e v, ∃ sid1, (s.VoteConfig env e v).s.Identities.get id = some sid1 ∧
      sid1.Latest = sid.Latest) ∧
    (∀ env e psb, ∃ sid1, (s.PropagateSkipBlock env e psb).s.Identities.get id = some sid1 ∧
      sid1.Latest = sid.Latest) ∧
    (∀ e cnc, ∃ sid1, (s.ConfigNewCheck e cnc).s.Identities.get id = some sid1 ∧
      sid1.Latest = sid.Latest) ∧
    (∀ e cu, ∃ sid1, (s.ConfigUpdate e cu).s.Identities.get id = some sid1 ∧
      sid1.Latest = sid.Latest) := by
  refine ⟨fun e p => ?_, fun env e v => ?_, fun env e psb => ?_, fun e cnc => ?_,
    fun e cu => ?_⟩
  · rcases proposeConfig_state s e p with h | ⟨sid0, h0, h⟩
    · exact ⟨sid, by rw [h]; exact hid, rfl⟩
    · rw [h]
      exact latest_kept_of_set _ _ _ _ sid0 sid hid h0 rfl
  · rcases voteConfig_state env s e v with h |
      ⟨sid0, latest, owner, proposed, hash, votes, data, h0, -, -, -, -, -, -, -, h⟩
    · exact ⟨sid, by rw [h]; exact hid, rfl⟩
    · rw [h]
      exact latest_kept_of_set _ _ _ _ sid0 sid hid h0 rfl
  · rcases propagateSkipBlock_state env s e psb with h | ⟨sid0, b, h0, h⟩
    · exact ⟨sid, by rw [h]; exact hid, rfl⟩
    · rw [h]
      exact latest_kept_of_set _ _ _ _ sid0 sid hid h0 rfl
  · exact ⟨sid, by rw [configNewCheck_state]; exact hid, rfl⟩
  · exact ⟨sid, by rw [configUpdate_state]; exact hid, rfl⟩

/-- Witness of C17: the committed ballot of alice leaves `Latest` of `"id1"` as it was. -/
theorem latest_never_reassigned_witness :
    ∃ sid1, (Sample.pendingService.VoteConfig Sample.env Sample.client
        ⟨"id1", "alice", some "pkA/digest3"⟩).s.Identities.get "id1" = some sid1 ∧
      sid1.Latest = Sample.pendingStorage.Latest :=
  (latest_never_reassigned Sample.pendingService "id1" Sample.pendingStorage
    (by decide)).2.1 Sample.env Sample.client ⟨"id1", "alice", some "pkA/digest3"⟩

/-! ## Soundness of the tally -/

theorem GoMap.set_eq_append {V : Type} (m : GoMap V) (k : String) (v : V)
    (h : m.has k = false) : m.set k v = m ++ [(k, v)] := by
  induction m with
  | nil => rfl
  | cons kv m ih =>
    obtain ⟨k0, v0⟩ := kv
    by_cases hk : k0 = k
    · simp [GoMap.has, GoMap.get, hk] at h
    · have h2 : GoMap.has m k = false := by simpa [GoMap.has, GoMap.get, hk] using h
      simp [GoMap.set, hk, ih h2]

theorem GoMap.not_mem_keys {V : Type} (m : GoMap V) (k : String)
    (h : m.has k = false) : k ∉ m.map Prod.fst := by
  induction m with
  | nil => simp
  | cons kv m ih =>
    obtain ⟨k0, v0⟩ := kv
    by_cases hk : k0 = k
    · simp [GoMap.has, GoMap.get, hk] at h
    · have h2 : GoMap.has m k = false := by simpa [GoMap.has, GoMap.get, hk] using h
      simp only [List.map_cons, List.mem_cons, not_or]
      exact ⟨fun hkk => hk hkk.symm, ih h2⟩

theorem GoMap.mem_keys_of_get {V : Type} (m : GoMap V) (k : String) (v : V)
    (h : m.get k = some v) : k ∈ m.map Prod.fst := by
  induction m with
  | nil => simp [GoMap.get] at h
  | cons kv m ih =>
    obtain ⟨k0, v0⟩ := kv
    by_cases hk : k0 = k
    · simp [hk]
    · simp only [GoMap.get, hk, if_false] at h
      simp [ih h]

/-- Every call other than `PropagateIdentity` keeps the tally of every replica sound,
the digest and the verifier being the same functions from call to call. -/
theorem handle_tallySound (H : AccountList → Except String HashID)
    (V : Point → HashID → SchnorrSig → Option String) (env : Env) (s : Service)
    (e : Entity) (req : Request) (hreq : req.fromCreation = true)
    (hH : env.Hash = H) (hV : env.VerifySchnorr = V)
    (hinv : ∀ id sid, s.Identities.get id = some sid → sid.tallySound H V) :
    ∀ id sid, (s.handle env e req).s.Identities.get id = some sid → sid.tallySound H V := by
  cases req with
  | addIdentity m =>
    rcases addIdentity_state env s e m with h | ⟨root, d, h⟩
    · simpa [Service.handle, h] using hinv
    · simp only [Service.handle, h]
      refine forall_get_set _ _ _ _ hinv ?_
      intro votes hv
      simp [createdStorage] at hv
  | propagateIdentity m => simp [Request.fromCreation] at hreq
  | configNewCheck m => simp [Request.fromCreation] at hreq
  | configUpdate m => simp [Request.fromCreation] at hreq
  | proposeConfig m =>
    rcases proposeConfig_state s e m with h | ⟨sid0, h0, h⟩
    · simpa [Service.handle, h] using hinv
    · simp only [Service.handle, h]
      refine forall_get_set _ _ _ _ hinv ?_
      intro votes hv
      simp only [Option.some.injEq] at hv
      subst hv
      simp
  | propagateSkipBlock m =>
    rcases propagateSkipBlock_state env s e m with h | ⟨sid0, b, h0, h⟩
    · simpa [Service.handle, h] using hinv
    · simp only [Service.handle, h]
      refine forall_get_set _ _ _ _ hinv ?_
      intro votes hv
      exact hinv _ _ h0 votes hv
  | voteConfig m =>
    rcases voteConfig_state env s e m with h |
      ⟨sid0, latest, owner, proposed, hash, votes0, data, h0, hlatest, howner, hproposed,
        hhash, hvotes, hfresh, hsig, h⟩
    · simpa [Service.handle, h] using hinv
    · simp only [Service.handle, h]
      refine forall_get_set _ _ _ _ hinv ?_
      intro votes hv
      simp only [Option.some.injEq] at hv
      subst hv
      obtain ⟨hnodup, hmem⟩ := hinv _ _ h0 votes0 hvotes
      rw [GoMap.set_eq_append _ _ _ hfresh]
      constructor
      · rw [List.map_append, List.nodup_append]
        refine ⟨hnodup, by simp, ?_⟩
        intro a ha hb
        simp only [List.map_cons, List.map_nil, List.mem_singleton] at hb
        subst hb
        exact GoMap.not_mem_keys _ _ hfresh ha
      · intro k b hkb
        rcases List.mem_append.1 hkb with hold | hnew
        · exact hmem k b hold
        · simp only [List.mem_singleton, Prod.mk.injEq] at hnew
          obtain ⟨rfl, rfl⟩ := hnew
          refine ⟨latest, owner, hlatest, howner, fun sig hs => ?_⟩
          exact ⟨proposed, hash, hproposed, hH ▸ hhash, hV ▸ hsig sig hs⟩

/-- C18: in every state reached from the empty registry through calls of `AddIdentity`,
`ProposeConfig`, `VoteConfig` and `PropagateSkipBlock`, never panicking, the digest and
the verifier being the same functions from call to call, every name in `Votes` of an
identity is a key of its `Latest.Owners` and every signature stored in `Votes` verifies
against the digest of the current `Proposed` under the key `Latest` holds for that
name; the number of entries of `Votes` is at most the number of owners of `Latest`. -/
theorem tally_sound (H : AccountList → Except String HashID)
    (V : Point → HashID → SchnorrSig → Option String) (calls : List Call) (s : Service)
    (hcalls : ∀ c ∈ calls, c.req.fromCreation = true ∧ c.env.Hash = H ∧
      c.env.VerifySchnorr = V)
    (hrun : Service.empty.run calls = some s) :
    ∀ id sid votes, s.Identities.get id = some sid → sid.Votes = some votes →
      (∀ k b, (k, b) ∈ votes →
        ∃ latest owner, sid.Latest = some latest ∧ latest.Owners.get k = some owner ∧
          ∀ sig, b = some sig →
            ∃ proposed hash, sid.Proposed = some proposed ∧ H proposed = .ok hash ∧
              V owner.Point hash sig = none) ∧
      (∀ latest, sid.Latest = some latest → votes.length ≤ latest.Owners.length) := by
  have hinv := run_invariant
    (fun s => ∀ id sid, s.Identities.get id = some sid → sid.tallySound H V)
    (fun c => c.req.fromCreation = true ∧ c.env.Hash = H ∧ c.env.VerifySchnorr = V)
    (fun s c hc hs => handle_tallySound H V c.env s c.sender c.req hc.1 hc.2.1 hc.2.2 hs)
    calls Service.empty s (by intro id sid h; simp [Service.empty, GoMap.get] at h)
    hcalls hrun
  intro id sid votes hid hvotes
  obtain ⟨hnodup, hmem⟩ := hinv id sid hid votes hvotes
  refine ⟨hmem, fun latest hlatest => ?_⟩
  have hsub : votes.map Prod.fst ⊆ latest.Owners.map Prod.fst := by
    intro k hk
    obtain ⟨⟨k1, b⟩, hkb, rfl⟩ := List.mem_map.1 hk
    obtain ⟨latest1, owner, hl, ho, -⟩ := hmem k1 b hkb
    rw [hlatest] at hl
    cases hl
    exact GoMap.mem_keys_of_get _ _ _ ho
  have hlen := (List.subperm_of_subset hnodup hsub).length_le
  simpa using hlen

/-- Witness of C18: the identity `"id1"` is created, `nextCfg` is proposed, alice
approves and bob rejects. -/
theorem tally_sound_witness :
    Service.empty.run Sample.createProposeVote = some ⟨[("id1", Sample.tallyStorage)]⟩ ∧
    ((∀ k b, (k, b) ∈ [("alice", some "pkA/digest3"), ("bob", (none : Option SchnorrSig))] →
        ∃ latest owner, Sample.tallyStorage.Latest = some latest ∧
          latest.Owners.get k = some owner ∧
          ∀ sig, b = some sig →
            ∃ proposed hash, Sample.tallyStorage.Proposed = some proposed ∧
              Sample.env.Hash proposed = .ok hash ∧
              Sample.env.VerifySchnorr owner.Point hash sig = none) ∧
      (∀ latest, Sample.tallyStorage.Latest = some latest →
        [("alice", some "pkA/digest3"), ("bob", (none : Option SchnorrSig))].length ≤
          latest.Owners.length)) :=
  ⟨by decide,
   tally_sound Sample.env.Hash Sample.env.VerifySchnorr Sample.createProposeVote
     ⟨[("id1", Sample.tallyStorage)]⟩
     (by
       intro c hc
       simp only [Sample.createProposeVote, List.mem_cons, List.mem_singleton,
         List.not_mem_nil, or_false] at hc
       rcases hc with rfl | rfl | rfl | rfl <;> exact ⟨rfl, rfl, rfl⟩)
     (by decide) "id1" Sample.tallyStorage
     [("alice", some "pkA/digest3"), ("bob", none)] (by decide) (by decide)⟩

/-! ## Writing into the Votes map -/

/-- C19, the failing input: on a node that starts, `PropagateIdentity` installs an
arriving storage whose `Proposed` is present and whose `Votes` map is nil; the valid
ballot of alice then passes the validation and the write `sid.Votes[v.Signer] = ...`
panics. -/
theorem voteConfig_nil_votes_faults :
    Service.empty.run [⟨Sample.env, Sample.peer, .propagateIdentity ⟨Sample.nilVotesStorage⟩⟩] =
      some ⟨[("id1", Sample.nilVotesStorage)]⟩ ∧
    Sample.nilVotesStorage.Proposed = some Sample.nextCfg ∧
    Sample.nilVotesStorage.Votes = none ∧
    Service.VoteConfig Sample.env ⟨[("id1", Sample.nilVotesStorage)]⟩ Sample.client
        ⟨"id1", "alice", some "pkA/digest3"⟩ =
      ⟨⟨[("id1", Sample.nilVotesStorage)]⟩, .fault,
        [.verifySchnorr "pkA" "digest3" "pkA/digest3"]⟩ := by
  decide

/-- C8, the failing input: `"id1"` has a pending proposal and a nil `Votes` map, as
`PropagateIdentity` installs them; the rejecting ballot of the owner bob, sent by a
client that is no roster peer, passes every check of lines 147-171, and the write of
line 172 panics: no relay is sent and no ledger append is attempted. -/
theorem voteConfig_client_nil_votes_no_append :
    Service.empty.run [⟨Sample.env, Sample.peer, .propagateIdentity ⟨Sample.nilVotesStorage⟩⟩] =
      some Sample.nilVotesService ∧
    Sample.latestCfg.Owners.get "bob" = some ⟨"pkB"⟩ ∧
    Sample.nilVotesStorage.Proposed = some Sample.nextCfg ∧
    (Sample.nilVotesStorage.Votes.getD []).has "bob" = false ∧
    Search Sample.rootBlock.EntityList Sample.client.ID = -1 ∧
    Sample.nilVotesService.VoteConfig Sample.env Sample.client ⟨"id1", "bob", none⟩ =
      ⟨Sample.nilVotesService, .fault, []⟩ ∧
    Event.proposeData (some Sample.rootBlock) (some Sample.dataBlock) Sample.nextCfg ∉
      (Sample.nilVotesService.VoteConfig Sample.env Sample.client
        ⟨"id1", "bob", none⟩).trace := by
  decide

/-- C9, the failing input: `"id1"` has a pending proposal and a nil `Votes` map, as
`PropagateIdentity` installs them; the approving ballot of the owner bob, validly
signed and sent by the roster peer n2, passes every check of lines 147-171, and the
write of line 172 panics: the ballot is not recorded and the call does not return
`(nil, nil)`. -/
theorem voteConfig_peer_nil_votes_not_recorded :
    Service.empty.run [⟨Sample.env, Sample.peer, .propagateIdentity ⟨Sample.nilVotesStorage⟩⟩] =
      some Sample.nilVotesService ∧
    Sample.latestCfg.Owners.get "bob" = some ⟨"pkB"⟩ ∧
    Sample.nilVotesStorage.Proposed = some Sample.nextCfg ∧
    (Sample.nilVotesStorage.Votes.getD []).has "bob" = false ∧
    Sample.env.VerifySchnorr "pkB" "digest3" "pkB/digest3" = none ∧
    Search Sample.rootBlock.EntityList Sample.peer.ID = 1 ∧
    Sample.nilVotesService.VoteConfig Sample.env Sample.peer
        ⟨"id1", "bob", some "pkB/digest3"⟩ =
      ⟨Sample.nilVotesService, .fault, [.verifySchnorr "pkB" "digest3" "pkB/digest3"]⟩ ∧
    (Sample.nilVotesService.VoteConfig Sample.env Sample.peer
        ⟨"id1", "bob", some "pkB/digest3"⟩).out ≠ .reply none := by
  decide

/-- Every call keeps the property that a replica with a pending proposal has an
initialised `Votes` map, when the storage that a `PropagateIdentity` request carries
has it: `AddIdentity` stores no proposal and `ProposeConfig` makes the map. -/
theorem handle_votes_initialised (env : Env) (s : Service) (e : Entity) (req : Request)
    (hreq : ∀ m, req = .propagateIdentity m →
      m.IdentityStorage.Proposed.isSome = true → m.IdentityStorage.Votes.isSome = true)
    (hinv : ∀ id sid, s.Identities.get id = some sid →
      sid.Proposed.isSome = true → sid.Votes.isSome = true) :
    ∀ id sid, (s.handle env e req).s.Identities.get id = some sid →
      sid.Proposed.isSome = true → sid.Votes.isSome = true := by
  cases req with
  | addIdentity m =>
    rcases addIdentity_state env s e m with h | ⟨root, d, h⟩
    · simpa [Service.handle, h] using hinv
    · simp only [Service.handle, h]
      exact forall_get_set _ _ _ _ hinv (by simp [createdStorage])
  | propagateIdentity m =>
    rcases propagateIdentity_state s e m with h | ⟨d, -, h⟩
    · simpa [Service.handle, h] using hinv
    · simp only [Service.handle, h]
      exact forall_get_set _ _ _ _ hinv (hreq m rfl)
  | configNewCheck m => simpa [Service.handle, configNewCheck_state] using hinv
  | configUpdate m => simpa [Service.handle, configUpdate_state] using hinv
  | proposeConfig m =>
    rcases proposeConfig_state s e m with h | ⟨sid0, h0, h⟩
    · simpa [Service.handle, h] using hinv
    · simp only [Service.handle, h]
      exact forall_get_set _ _ _ _ hinv (by simp)
  | propagateSkipBlock m =>
    rcases propagateSkipBlock_state env s e m with h | ⟨sid0, b, h0, h⟩
    · simpa [Service.handle, h] using hinv
    · simp only [Service.handle, h]
      exact forall_get_set _ _ _ _ hinv (fun hp => hinv _ sid0 h0 hp)
  | voteConfig m =>
    rcases voteConfig_state env s e m with h |
      ⟨sid0, latest, owner, proposed, hash, votes0, data, h0, -, -, -, -, -, -, -, h⟩
    · simpa [Service.handle, h] using hinv
    · simp only [Service.handle, h]
      exact forall_get_set _ _ _ _ hinv (by simp)

/-- Without an arriving storage that has a proposal and a nil `Votes` map, the property
holds in every state reached from the empty registry: a pending proposal comes with an
initialised `Votes` map. -/
theorem votes_initialised_of_inputs (calls : List Call) (s : Service)
    (hin : ∀ c ∈ calls, ∀ m, c.req = .propagateIdentity m →
      m.IdentityStorage.Proposed.isSome = true → m.IdentityStorage.Votes.isSome = true)
    (hrun : Service.empty.run calls = some s) :
    ∀ id sid, s.Identities.get id = some sid →
      sid.Proposed.isSome = true → sid.Votes.isSome = true :=
  run_invariant
    (fun s => ∀ id sid, s.Identities.get id = some sid →
      sid.Proposed.isSome = true → sid.Votes.isSome = true)
    (fun c => ∀ m, c.req = .propagateIdentity m →
      m.IdentityStorage.Proposed.isSome = true → m.IdentityStorage.Votes.isSome = true)
    (fun s c hc hs => handle_votes_initialised c.env s c.sender c.req hc hs)
    calls Service.empty s (by intro id sid h; simp [Service.empty, GoMap.get] at h) hin hrun

end Identity
